import Mathlib

/-!
# QtRestClient: the `qrestbuilder` class generator

A shallow embedding of `src/tools/qrestbuilder/classbuilder.cpp`, and of the five-argument
constructor of `src/Tests/RestObjectTest/testobject.cpp`.

* A `QString` is the list of its characters; the null string and the empty string are both `[]`
  (the code only uses `isEmpty`, `==`, concatenation and streaming, which do not tell them apart).
* A thrown `QString` is recorded in `Outcome.thrown`, together with the state of the builder at
  the moment of the throw.
* `header << text` and `source << text` append `text` to the matching buffer.
-/

set_option autoImplicit false

namespace QtRestClient

/-! ## Strings -/

abbrev QString := List Char

instance : Coe String QString := ⟨String.toList⟩

/-- The fold behind `QString::split(sep)` with the default `KeepEmptyParts`: the parts between the
separators, empty parts included; `cur` is the part being read. -/
def splitAux (sep : Char) : QString → QString → List QString
  | [], cur => [cur]
  | c :: cs, cur => if c = sep then cur :: splitAux sep cs [] else splitAux sep cs (cur ++ [c])

/-- Models `QString::split(sep)`. -/
def split (data : QString) (sep : Char) : List QString :=
  splitAux sep data []

/-- Models `QStringList::join(separator)`. -/
def join (parts : List QString) (separator : QString) : QString :=
  separator.intercalate parts

/-! ## JSON values -/

/-- Models `QJsonValue`; a JSON object is the list of its members in iteration order. The payload of a
number is never read by the generator. -/
inductive QJsonValue where
  | null
  | bool (b : Bool)
  | double (d : Int)
  | string (s : QString)
  | array (a : List QJsonValue)
  | object (o : List (QString × QJsonValue))
  | undefined

abbrev QJsonArray := List QJsonValue

abbrev QJsonObject := List (QString × QJsonValue)

/-- Models `QJsonValue::toString(defaultValue)`; `toString()` is `toString []`. -/
def QJsonValue.toString (v : QJsonValue) (defaultValue : QString) : QString :=
  match v with
  | .string s => s
  | _ => defaultValue

/-- Models `QJsonValue::toBool(defaultValue)`. -/
def QJsonValue.toBool (v : QJsonValue) (defaultValue : Bool) : Bool :=
  match v with
  | .bool b => b
  | _ => defaultValue

/-- Models `QJsonValue::toObject()`: the empty object when the value is not an object. -/
def QJsonValue.toObject (v : QJsonValue) : QJsonObject :=
  match v with
  | .object o => o
  | _ => []

/-- Models `QJsonValue::toArray()`: the empty array when the value is not an array. -/
def QJsonValue.toArray (v : QJsonValue) : QJsonArray :=
  match v with
  | .array a => a
  | _ => []

/-- Models `QJsonObject::operator[](key)`, read as a value: `undefined` when the key is absent. -/
def QJsonObject.value (o : QJsonObject) (key : QString) : QJsonValue :=
  match o.find? (fun m => m.1 = key) with
  | some m => m.2
  | none => .undefined

/-! ## Keyed containers -/

/-- The keyed container behind `classes`, `methods` and `MethodInfo::headers`, as the list of its
entries in iteration order. Its declaration is in `classbuilder.h`, which is not part of the
sources at hand; a new key is taken to be visited last. -/
abbrev QHash (α : Type) := List (QString × α)

/-- Models `insert(key, value)`: replaces the value of a key that is present, adds the entry otherwise. -/
def QHash.insert {α : Type} (h : QHash α) (key : QString) (value : α) : QHash α :=
  if h.any (fun e => e.1 = key) then h.map (fun e => if e.1 = key then (key, value) else e)
  else h ++ [(key, value)]

/-! ## Method descriptions -/

/-- Models `ClassBuilder::MethodInfo::Parameter`. -/
structure MethodInfo.Parameter where
  type : QString
  name : QString
  defaultValue : QString
  deriving DecidableEq, Repr

/-- The text thrown by the `Parameter` constructor. -/
def paramFormatError : QString :=
  "Element in pathParams must be of format \"name;type[;default]>\""

/-- The constructor `Parameter::Parameter(const QString &data)`. -/
def MethodInfo.Parameter.create (data : QString) : Except QString MethodInfo.Parameter :=
  let param := split data ';'
  if param.length < 2 ∨ param.length > 3 then
    .error paramFormatError
  else
    .ok { type := param.getD 1 [],
          name := param.getD 0 [],
          defaultValue := if param.length = 3 then param.getD 2 [] else [] }

/-- Models `Parameter::write(withDefault)`. -/
def MethodInfo.Parameter.write (p : MethodInfo.Parameter) (withDefault : Bool) : QString :=
  let res : QString := p.type ++ [' '] ++ p.name
  if withDefault ∧ p.defaultValue ≠ [] then res ++ " = " ++ p.defaultValue else res

/-- Models `ClassBuilder::MethodInfo`. -/
structure MethodInfo where
  path : QString
  url : QString
  verb : QString
  pathParams : List MethodInfo.Parameter
  parameters : List MethodInfo.Parameter
  headers : QHash QString
  body : QString
  returns : QString
  except : QString
  deriving DecidableEq, Repr

/-- The constructor `MethodInfo::MethodInfo()`. -/
def MethodInfo.create : MethodInfo :=
  { path := [], url := [], verb := "GET", pathParams := [], parameters := [], headers := [],
    body := [], returns := "QObject*", except := "QObject*" }

/-! ## The builder -/

/-- The members and helpers that `ClassBuilder` inherits from `RestBuilder`, whose code is not
part of the sources at hand. `readIncludes` gives the include list read from a schema, and
`writeIncludes` the text that `writeIncludes(stream, includes)` appends to the stream. -/
structure RestBuilder where
  root : QJsonObject
  fileName : QString
  className : QString
  exportedClassName : QString
  header : QString
  source : QString
  readIncludes : QJsonObject → List QString
  writeIncludes : List QString → QString

/-- Models `ClassBuilder`. -/
structure ClassBuilder extends RestBuilder where
  classes : QHash QString
  methods : QHash MethodInfo
  defaultExcept : QString

/-- The constructor `ClassBuilder::ClassBuilder()`. -/
def ClassBuilder.create (base : RestBuilder) : ClassBuilder :=
  { base with classes := [], methods := [], defaultExcept := "QObject*" }

/-- What a call that may throw leaves behind: the text thrown, if any, and the builder. -/
structure Outcome where
  thrown : Option QString
  state : ClassBuilder

/-- Models `header << text`. -/
def ClassBuilder.hdr (b : ClassBuilder) (text : QString) : ClassBuilder :=
  { b with header := b.header ++ text }

/-- Models `source << text`. -/
def ClassBuilder.src (b : ClassBuilder) (text : QString) : ClassBuilder :=
  { b with source := b.source ++ text }

/-- Models `ClassBuilder::expr`. -/
def expr (expression : QString) : QString :=
  if expression.head? = some '$' then expression.drop 1 else ['"'] ++ expression ++ ['"']

/-- The text thrown by `build` for a schema of the wrong type. -/
def typeError : QString := "REST_API_CLASSES must be either of type api or class"

/-- The text thrown by `readMethods` for a method with both a path and a url. -/
def pathUrlError : QString := "You can only use either path or url, not both!"

/-! ### Reading the schema -/

/-- Models `ClassBuilder::readClasses`. -/
def readClasses (b : ClassBuilder) : ClassBuilder :=
  let cls := (QJsonObject.value b.root "classes").toObject
  cls.foldl (fun b it => { b with classes := b.classes.insert it.1 (it.2.toString []) }) b

/-- The two `foreach` loops of `readMethods` over an array of encoded parameters: each entry is
converted to a `Parameter`, and the first one that throws ends the loop. -/
def readParams : QJsonArray → Except QString (List MethodInfo.Parameter)
  | [] => .ok []
  | value :: rest =>
    match MethodInfo.Parameter.create (value.toString []) with
    | .error e => .error e
    | .ok p =>
      match readParams rest with
      | .error e => .error e
      | .ok ps => .ok (p :: ps)

/-- The loop over `headers` in `readMethods`. -/
def readHeaders (headers : QJsonObject) : QHash QString :=
  headers.foldl (fun h jt => h.insert jt.1 (jt.2.toString [])) []

/-- The body of the loop of `readMethods` up to the insertion: the `MethodInfo` read from the
schema object of one method. -/
def readMethod (defaultExcept : QString) (obj : QJsonObject) : Except QString MethodInfo :=
  let info := MethodInfo.create
  let info := { info with path := (QJsonObject.value obj "path").toString info.path }
  let info := { info with url := (QJsonObject.value obj "url").toString info.url }
  if info.path ≠ [] ∧ info.url ≠ [] then
    .error pathUrlError
  else
    let info := { info with verb := (QJsonObject.value obj "verb").toString info.verb }
    match readParams (QJsonObject.value obj "pathParams").toArray with
    | .error e => .error e
    | .ok pathParams =>
      let info := { info with pathParams := info.pathParams ++ pathParams }
      match readParams (QJsonObject.value obj "parameters").toArray with
      | .error e => .error e
      | .ok parameters =>
        let info := { info with parameters := info.parameters ++ parameters }
        let info := { info with
          headers := (readHeaders (QJsonObject.value obj "headers").toObject) }
        let info := { info with body := (QJsonObject.value obj "body").toString info.body }
        let info := { info with
          returns := (QJsonObject.value obj "returns").toString info.returns }
        let info := { info with
          except := (QJsonObject.value obj "except").toString defaultExcept }
        .ok info

/-- The loop of `readMethods` over the members of `root["methods"]`. -/
def readMethodsLoop : QJsonObject → ClassBuilder → Outcome
  | [], b => ⟨none, b⟩
  | it :: rest, b =>
    match readMethod b.defaultExcept it.2.toObject with
    | .error e => ⟨some e, b⟩
    | .ok info => readMethodsLoop rest { b with methods := b.methods.insert it.1 info }

/-- Models `ClassBuilder::readMethods`. -/
def readMethods (b : ClassBuilder) : Outcome :=
  let b := { b with
    defaultExcept := (QJsonObject.value b.root "except").toString b.defaultExcept }
  let member := (QJsonObject.value b.root "methods").toObject
  readMethodsLoop member b

/-! ### Writing the header -/

/-- Models `ClassBuilder::writeFactoryDeclarations`. -/
def writeFactoryDeclarations (b : ClassBuilder) : ClassBuilder :=
  let b := b.classes.foldl
    (fun b it => b.hdr ("\t\t" ++ it.2 ++ "::Factory " ++ it.1 ++ "() const;\n")) b
  if b.classes ≠ [] then b.hdr ['\n'] else b

/-- Models `ClassBuilder::generateFactoryDeclaration`. -/
def generateFactoryDeclaration (b : ClassBuilder) : ClassBuilder :=
  let b := b.hdr ("\tstatic const QString Path;\n\n"
    ++ "\tclass Factory\n"
    ++ "\t\x7b\n"
    ++ "\tpublic:\n"
    ++ "\t\tFactory(QtRestClient::RestClient *client, const QStringList &parentPath);\n\n")
  let b := writeFactoryDeclarations b
  b.hdr ("\t\t" ++ b.className ++ " *instance(QObject *parent = nullptr) const;\n\n"
    ++ "\tprivate:\n"
    ++ "\t\tQtRestClient::RestClient *client;\n"
    ++ "\t\tQStringList subPath;\n"
    ++ "\t\x7d;\n\n")

/-- Models `ClassBuilder::writeClassBeginDeclaration`. -/
def writeClassBeginDeclaration (b : ClassBuilder) (parent : QString) : ClassBuilder :=
  let includes := b.readIncludes b.root
  let includes := includes ++ [("QtRestClient/restclient.h" : QString)]
  let includes := includes ++ [("QtRestClient/restclass.h" : QString)]
  let includes := includes ++ [("QtCore/qstring.h" : QString)]
  let includes := includes ++ [("QtCore/qstringlist.h" : QString)]
  let b := b.hdr (b.writeIncludes includes)
  let b := b.hdr ("class " ++ b.exportedClassName ++ " : public " ++ parent ++ "\n"
    ++ "\x7b\n"
    ++ "\tQ_OBJECT\n\n"
    ++ "public:\n")
  generateFactoryDeclaration b

/-- Models `ClassBuilder::writeClassDeclarations`. -/
def writeClassDeclarations (b : ClassBuilder) : ClassBuilder :=
  let b := b.classes.foldl
    (fun b it => b.hdr ("\t" ++ it.2 ++ " *" ++ it.1 ++ "() const;\n")) b
  if b.classes ≠ [] then b.hdr ['\n'] else b

/-- The `QStringList parameters` built for one method by `writeMethodDeclarations` (with
`withDefault = true`) and by `writeMethodDefinitions` (with `withDefault = false`). -/
def methodParameters (info : MethodInfo) (withDefault : Bool) : List QString :=
  let parameters : List QString := []
  let parameters := if info.body ≠ [] then parameters ++ [info.body ++ " __body"] else parameters
  let parameters := info.pathParams.foldl (fun ps path => ps ++ [path.write withDefault]) parameters
  info.parameters.foldl (fun ps param => ps ++ [param.write withDefault]) parameters

/-- The body of the loop of `writeMethodDeclarations`: the declaration of one method. -/
def writeMethodDeclaration (b : ClassBuilder) (key : QString) (info : MethodInfo) :
    ClassBuilder :=
  let b := b.hdr ("\tQtRestClient::GenericRestReply<" ++ info.returns ++ ", " ++ info.except
    ++ "> *" ++ key ++ "(")
  let parameters := methodParameters info true
  b.hdr (join parameters ", " ++ ");\n")

/-- Models `ClassBuilder::writeMethodDeclarations`. -/
def writeMethodDeclarations (b : ClassBuilder) : ClassBuilder :=
  let b := b.methods.foldl (fun b it => writeMethodDeclaration b it.1 it.2) b
  if b.methods ≠ [] then b.hdr ['\n'] else b

/-- Models `ClassBuilder::writeMemberDeclarations`. -/
def writeMemberDeclarations (b : ClassBuilder) : ClassBuilder :=
  b.classes.foldl (fun b it => b.hdr ("\t" ++ it.2 ++ " *_" ++ it.1 ++ ";\n")) b

/-- Models `ClassBuilder::writeClassMainDeclaration`. -/
def writeClassMainDeclaration (b : ClassBuilder) : ClassBuilder :=
  let b := b.hdr ("\t" ++ b.className
    ++ "(QtRestClient::RestClass *restClass, QObject *parent);\n\n"
    ++ "\tQtRestClient::RestClient *restClient() const;\n"
    ++ "\tQtRestClient::RestClass *restClass() const;\n\n")
  let b := writeClassDeclarations b
  let b := writeMethodDeclarations b
  let b := b.hdr ("\tvoid setErrorTranslator(const std::function<QString(" ++ b.defaultExcept
    ++ ", int)> &fn);\n\n"
    ++ "Q_SIGNALS:\n"
    ++ "\tvoid apiError(const QString &errorString, int errorCode, QtRestClient::RestReply::ErrorType errorType);\n\n"
    ++ "private:\n"
    ++ "\tQtRestClient::RestClass *_restClass;\n"
    ++ "\tstd::function<QString(" ++ b.defaultExcept ++ ", int)> _errorTranslator;\n")
  writeMemberDeclarations b

/-! ### Writing the source -/

/-- Models `ClassBuilder::writeFactoryDefinitions`. -/
def writeFactoryDefinitions (b : ClassBuilder) : ClassBuilder :=
  b.classes.foldl
    (fun b it => b.src ("\n" ++ it.2 ++ "::Factory " ++ b.className ++ "::Factory::" ++ it.1
      ++ "() const\n"
      ++ "\x7b\n"
      ++ "\treturn " ++ it.2 ++ "::Factory(client, subPath);\n"
      ++ "\x7d\n")) b

/-- Models `ClassBuilder::generateFactoryDefinition`. -/
def generateFactoryDefinition (b : ClassBuilder) : ClassBuilder :=
  let b := b.src ("\n" ++ b.className
    ++ "::Factory::Factory(RestClient *client, const QStringList &parentPath) :\n"
    ++ "\tclient(client),\n"
    ++ "\tsubPath(parentPath)\n"
    ++ "\x7b\n"
    ++ "\tsubPath.append(" ++ b.className ++ "::Path);\n"
    ++ "\x7d\n")
  let b := writeFactoryDefinitions b
  b.src ("\n" ++ b.className ++ " *" ++ b.className
    ++ "::Factory::instance(QObject *parent) const\n"
    ++ "\x7b\n"
    ++ "\tauto rClass = client->createClass(subPath.join('/'));\n"
    ++ "\treturn new " ++ b.className ++ "(rClass, parent);\n"
    ++ "\x7d\n")

/-- Models `ClassBuilder::writeClassBeginDefinition`. -/
def writeClassBeginDefinition (b : ClassBuilder) : ClassBuilder :=
  let b := b.src ("#include \"" ++ b.fileName ++ ".h\"\n\n"
    ++ "#include <QtCore/qcoreapplication.h>\n"
    ++ "#include <QtCore/qtimer.h>\n"
    ++ "#include <QtCore/qpointer.h>\n"
    ++ "using namespace QtRestClient;\n\n"
    ++ "const QString " ++ b.className ++ "::Path("
    ++ expr ((QJsonObject.value b.root "path").toString []) ++ ");\n")
  generateFactoryDefinition b

/-- Models `ClassBuilder::writeMemberDefinitions`. -/
def writeMemberDefinitions (b : ClassBuilder) : ClassBuilder :=
  b.classes.foldl
    (fun b it => b.src ("\t,_" ++ it.1 ++ "(new " ++ it.2 ++ "(_restClass->subClass(" ++ it.2
      ++ "::Path), this))\n")) b

/-- Models `ClassBuilder::writeClassDefinitions`. -/
def writeClassDefinitions (b : ClassBuilder) : ClassBuilder :=
  b.classes.foldl
    (fun b it => b.src ("\n" ++ it.2 ++ " *" ++ b.className ++ "::" ++ it.1 ++ "() const\n"
      ++ "\x7b\n"
      ++ "\treturn _" ++ it.1 ++ ";\n"
      ++ "\x7d\n")) b

/-- Models `ClassBuilder::writeMethodPath`: the builder after the call and the value returned. The
`if`/`else if` chain either writes the declaration of `__path` or returns `false` at once. -/
def writeMethodPath (b : ClassBuilder) (info : MethodInfo) : ClassBuilder × Bool :=
  let declared : Option ClassBuilder :=
    if info.path ≠ [] then
      some (b.src ("\tQString __path = " ++ expr info.path ++ ";\n"))
    else if info.url ≠ [] then
      some (b.src ("\tQString __path = " ++ expr info.url ++ ";\n"))
    else if info.pathParams ≠ [] then
      some (b.src "\tQString __path;\n")
    else
      none
  match declared with
  | none => (b, false)
  | some b =>
    let b := info.pathParams.foldl
      (fun b param => b.src ("\t__path.append(QVariant::fromValue(" ++ param.name
        ++ ").toString());\n")) b
    (b.src "\n", true)

/-- The body of the loop of `writeMethodDefinitions`: the definition of one method. -/
def writeMethodDefinition (b : ClassBuilder) (key : QString) (info : MethodInfo) :
    ClassBuilder :=
  let b := b.src ("\nQtRestClient::GenericRestReply<" ++ info.returns ++ ", " ++ info.except
    ++ "> *" ++ b.className ++ "::" ++ key ++ "(")
  let parameters := methodParameters info false
  let b := b.src (join parameters ", " ++ ")\n"
    ++ "\x7b\n")
  -- create parameters
  let path := writeMethodPath b info
  let b := path.1
  let hasPath := path.2
  let b := b.src "\tQVariantHash __params;\n"
  let b := info.parameters.foldl
    (fun b param => b.src ("\t__params.insert(\"" ++ param.name ++ "\", " ++ param.name
      ++ ");\n")) b
  let b := b.src "\tHeaderHash __headers;\n"
  let b := info.headers.foldl
    (fun b jt => b.src ("\t__headers.insert(\"" ++ jt.1 ++ "\", " ++ expr jt.2 ++ ");\n")) b
  -- make call
  let b := b.src ("\n\tauto __reply = _restClass->call<" ++ info.returns ++ ", " ++ info.except
    ++ ">(" ++ expr info.verb ++ ", ")
  let b := if hasPath then
      (if info.url ≠ [] then b.src "QUrl(__path), " else b.src "__path, ")
    else b
  let b := if info.body ≠ [] then b.src "__body, " else b
  let b := b.src "__params, __headers);\n"
  let b := if info.except = b.defaultExcept then
      b.src ("\tQPointer<" ++ b.className ++ "> __this(this);\n"
        ++ "\t__reply->onAllErrors([__this](QString __e, int __c, RestReply::ErrorType __t)\x7b\n"
        ++ "\t\tif(__this)\n"
        ++ "\t\t\temit __this->apiError(__e, __c, __t);\n"
        ++ "\t\x7d, [__this](" ++ info.except ++ " __o, int __c)\x7b\n"
        ++ "\t\tif(__this && __this->_errorTranslator)\n"
        ++ "\t\t\treturn __this->_errorTranslator(__o, __c);\n"
        ++ "\t\telse\n"
        ++ "\t\t\treturn QString();\n"
        ++ "\t\x7d);\n")
    else b
  b.src ("\treturn __reply;\n"
    ++ "\x7d\n")

/-- Models `ClassBuilder::writeMethodDefinitions`. -/
def writeMethodDefinitions (b : ClassBuilder) : ClassBuilder :=
  b.methods.foldl (fun b it => writeMethodDefinition b it.1 it.2) b

/-- Models `ClassBuilder::writeClassMainDefinition`. -/
def writeClassMainDefinition (b : ClassBuilder) (parent : QString) : ClassBuilder :=
  let b := b.src ("\n" ++ b.className ++ "::" ++ b.className
    ++ "(RestClass *restClass, QObject *parent) :\n"
    ++ "\t" ++ parent ++ "(parent)\n"
    ++ "\t,_restClass(restClass)\n"
    ++ "\t,_errorTranslator()\n")
  let b := writeMemberDefinitions b
  let b := b.src ("\x7b\n"
    ++ "\t_restClass->setParent(this);\n"
    ++ "\x7d\n")
  let b := b.src ("\nRestClient *" ++ b.className ++ "::restClient() const\n"
    ++ "\x7b\n"
    ++ "\treturn _restClass->client();\n"
    ++ "\x7d\n")
  let b := b.src ("\nRestClass *" ++ b.className ++ "::restClass() const\n"
    ++ "\x7b\n"
    ++ "\treturn _restClass;\n"
    ++ "\x7d\n")
  let b := writeClassDefinitions b
  let b := writeMethodDefinitions b
  b.src ("\nvoid " ++ b.className ++ "::setErrorTranslator(const std::function<QString("
    ++ b.defaultExcept ++ ", int)> &fn)\n"
    ++ "\x7b\n"
    ++ "\t_errorTranslator = fn;\n"
    ++ "\x7d\n")

/-- Models `ClassBuilder::writeApiCreation`. -/
def writeApiCreation (b : ClassBuilder) : ClassBuilder :=
  let b := b.src ("\t\tclient = new RestClient(QCoreApplication::instance());\n"
    ++ "\t\tclient->setBaseUrl(QUrl(" ++ expr ((QJsonObject.value b.root "baseUrl").toString [])
    ++ "));\n")
  let version := (QJsonObject.value b.root "apiVersion").toString []
  let b := if version ≠ [] then
      b.src ("\t\tclient->setApiVersion(QVersionNumber::fromString(" ++ expr version ++ "));\n")
    else b
  let headers := (QJsonObject.value b.root "headers").toObject
  let b := headers.foldl
    (fun b it => b.src ("\t\tclient->addGlobalHeader(\"" ++ it.1 ++ "\", "
      ++ expr (it.2.toString []) ++ ");\n")) b
  let parameters := (QJsonObject.value b.root "parameters").toObject
  parameters.foldl
    (fun b it => b.src ("\t\tclient->addGlobalParameter(\"" ++ it.1 ++ "\", "
      ++ expr (it.2.toString []) ++ ");\n")) b

/-- Models `ClassBuilder::writeLocalApiGeneration`. -/
def writeLocalApiGeneration (b : ClassBuilder) : ClassBuilder :=
  let b := b.src ("\nRestClient *" ++ b.className ++ "::generateClient()\n"
    ++ "\x7b\n"
    ++ "\tstatic QPointer<RestClient> client = nullptr;\n"
    ++ "\tif(!client) \x7b\n")
  let b := writeApiCreation b
  b.src ("\t\x7d\n"
    ++ "\treturn client;\n"
    ++ "\x7d\n")

/-- Models `ClassBuilder::writeGlobalApiGeneration`. -/
def writeGlobalApiGeneration (b : ClassBuilder) (globalName : QString) : ClassBuilder :=
  let golbalExpr := expr globalName
  let b := b.src ("\nRestClient *" ++ b.className ++ "::generateClient()\n"
    ++ "\x7b\n"
    ++ "\tauto client = apiClient(" ++ golbalExpr ++ ");\n"
    ++ "\tif(!client) \x7b\n")
  let b := writeApiCreation b
  let b := b.src ("\t\taddGlobalApi(" ++ golbalExpr ++ ", client);\n"
    ++ "\t\x7d\n"
    ++ "\treturn client;\n"
    ++ "\x7d\n")
  if (QJsonObject.value b.root "autoCreate").toBool true then
    b.src ("\nstatic void __" ++ b.className ++ "_app_construct()\n"
      ++ "\x7b\n"
      ++ "\tQTimer::singleShot(0, &" ++ b.className ++ "::factory);\n"
      ++ "\x7d\n"
      ++ "Q_COREAPP_STARTUP_FUNCTION(__" ++ b.className ++ "_app_construct)\n")
  else b

/-! ### The two generators and `build` -/

/-- Models `ClassBuilder::generateClass`; the `qInfo()` line goes to the log, not to a buffer,
and is left out. -/
def generateClass (b : ClassBuilder) : Outcome :=
  let b := readClasses b
  match readMethods b with
  | ⟨some e, b⟩ => ⟨some e, b⟩
  | ⟨none, b⟩ =>
    let parent := (QJsonObject.value b.root "parent").toString "QObject"
    -- write header
    let b := writeClassBeginDeclaration b parent
    let b := writeClassMainDeclaration b
    let b := b.hdr "\x7d;\n\n"
    -- write source
    let b := writeClassBeginDefinition b
    let b := writeClassMainDefinition b parent
    ⟨none, b⟩

/-- Models `ClassBuilder::generateApi`; the `qInfo()` line goes to the log, not to a buffer, and
is left out. -/
def generateApi (b : ClassBuilder) : Outcome :=
  let b := readClasses b
  match readMethods b with
  | ⟨some e, b⟩ => ⟨some e, b⟩
  | ⟨none, b⟩ =>
    let parent := (QJsonObject.value b.root "parent").toString "QObject"
    -- write header
    let b := writeClassBeginDeclaration b parent
    let b := b.hdr ("\tstatic " ++ b.className ++ "::Factory factory();\n")
    let b := b.hdr ("\t" ++ b.className ++ "(QObject *parent = nullptr);\n")
    let b := writeClassMainDeclaration b
    let b := b.hdr ("\n\tstatic QtRestClient::RestClient *generateClient();\n"
      ++ "\x7d;\n\n")
    -- write source
    let b := writeClassBeginDefinition b
    let b := b.src ("\n" ++ b.className ++ "::Factory " ++ b.className ++ "::factory()\n"
      ++ "\x7b\n"
      ++ "\treturn " ++ b.className ++ "::Factory(generateClient(), \x7b\x7d);\n"
      ++ "\x7d\n")
    let b := b.src ("\n" ++ b.className ++ "::" ++ b.className ++ "(QObject *parent) :\n"
      ++ "\t" ++ b.className ++ "(generateClient()->createClass(QString()), parent)\n"
      ++ "\x7b\x7d\n")
    let b := writeClassMainDefinition b parent
    -- write API generation
    let globalName := (QJsonObject.value b.root "globalName").toString []
    let b := if globalName ≠ [] then writeGlobalApiGeneration b globalName
      else writeLocalApiGeneration b
    ⟨none, b⟩

/-- Models `ClassBuilder::build`. -/
def build (b : ClassBuilder) : Outcome :=
  if (QJsonObject.value b.root "type").toString [] = ("api" : QString) then
    generateApi b
  else if (QJsonObject.value b.root "type").toString [] = ("class" : QString) then
    generateClass b
  else
    ⟨some typeError, b⟩

/-! ## What the schema says -/

/-- The path and the url that `readMethod` reads from the schema object of a method. -/
def methodPath (obj : QJsonObject) : QString := (QJsonObject.value obj "path").toString []

/-- See `methodPath`. -/
def methodUrl (obj : QJsonObject) : QString := (QJsonObject.value obj "url").toString []

/-- The `type` of the schema as `build` reads it: the empty string when `type` is missing or is
not a string. -/
def rootType (b : ClassBuilder) : QString := (QJsonObject.value b.root "type").toString []

/-! ## Sample schemas -/

/-- A freshly constructed builder for the schema `root`, with empty buffers, no include of its
own, and every include written as one `#include <...>` line. -/
def sampleBuilder (root : QJsonObject) : ClassBuilder :=
  ClassBuilder.create
    { root := root, fileName := "api", className := "Api", exportedClassName := "Api",
      header := [], source := [],
      readIncludes := fun _ => [],
      writeIncludes := fun includes =>
        (includes.map (fun i => ("#include <" : QString) ++ i ++ (">\n" : QString))).flatten }

/-- An api schema whose only method `both` sets a path and a url. -/
def schemaPathAndUrl : QJsonObject :=
  [("type", .string "api"),
   ("methods", .object [("both", .object [("path", .string "a"), ("url", .string "b")])])]

/-- A class schema whose only method `get` has a path parameter without a type. -/
def schemaBadParam : QJsonObject :=
  [("type", .string "class"),
   ("methods", .object [("get", .object [("pathParams", .array [.string "id"])])])]

/-- A schema whose `type` is a number. -/
def schemaNoType : QJsonObject := [("type", .double 1)]

/-! ## The parts of the generated text

Each part is the text that one stretch of the generator appends; the facts below show that the
writers append exactly these texts. -/

/-- One text per entry, in iteration order. -/
def perEntry {α : Type} (entries : List α) (text : α → QString) : QString :=
  (entries.map text).flatten

/-- The blank line that closes a block of declarations, absent when the block is empty. -/
def blankLine {α : Type} (entries : List α) : QString :=
  match entries with
  | [] => []
  | _ :: _ => ['\n']

/-- A part that only `generateApi` writes. -/
def apiOnly (api : Bool) (text : QString) : QString :=
  if api then text else []

/-! ### Sub-classes -/

/-- The accessor that `writeFactoryDeclarations` declares in `Factory` for one sub-class. -/
def factoryAccessorDeclaration (it : QString × QString) : QString :=
  "\t\t" ++ it.2 ++ "::Factory " ++ it.1 ++ "() const;\n"

/-- The accessor that `writeClassDeclarations` declares for one sub-class. -/
def classAccessorDeclaration (it : QString × QString) : QString :=
  "\t" ++ it.2 ++ " *" ++ it.1 ++ "() const;\n"

/-- The private member that `writeMemberDeclarations` declares for one sub-class. -/
def memberDeclaration (it : QString × QString) : QString :=
  "\t" ++ it.2 ++ " *_" ++ it.1 ++ ";\n"

/-- The `Factory` accessor that `writeFactoryDefinitions` defines for one sub-class. -/
def factoryAccessorDefinition (className : QString) (it : QString × QString) : QString :=
  "\n" ++ it.2 ++ "::Factory " ++ className ++ "::Factory::" ++ it.1 ++ "() const\n"
    ++ "\x7b\n"
    ++ "\treturn " ++ it.2 ++ "::Factory(client, subPath);\n"
    ++ "\x7d\n"

/-- The constructor initialiser that `writeMemberDefinitions` writes for one sub-class. -/
def memberInitialiser (it : QString × QString) : QString :=
  "\t,_" ++ it.1 ++ "(new " ++ it.2 ++ "(_restClass->subClass(" ++ it.2 ++ "::Path), this))\n"

/-- The accessor that `writeClassDefinitions` defines for one sub-class. -/
def classAccessorDefinition (className : QString) (it : QString × QString) : QString :=
  "\n" ++ it.2 ++ " *" ++ className ++ "::" ++ it.1 ++ "() const\n"
    ++ "\x7b\n"
    ++ "\treturn _" ++ it.1 ++ ";\n"
    ++ "\x7d\n"

/-! ### Methods -/

/-- The declaration that `writeMethodDeclarations` writes for one method. -/
def methodDeclaration (it : QString × MethodInfo) : QString :=
  "\tQtRestClient::GenericRestReply<" ++ it.2.returns ++ ", " ++ it.2.except ++ "> *" ++ it.1
    ++ "(" ++ join (methodParameters it.2 true) ", " ++ ");\n"

/-- The statement that `writeMethodPath` writes for one path parameter. -/
def pathAppend (param : MethodInfo.Parameter) : QString :=
  "\t__path.append(QVariant::fromValue(" ++ param.name ++ ").toString());\n"

/-- Whether `writeMethodPath` declares `__path`, which is the value it returns. -/
def hasPath (info : MethodInfo) : Bool :=
  decide (info.path ≠ [] ∨ info.url ≠ [] ∨ info.pathParams ≠ [])

/-- The declaration of `__path` written by `writeMethodPath`, when there is one. -/
def pathDeclaration (info : MethodInfo) : QString :=
  if info.path ≠ [] then "\tQString __path = " ++ expr info.path ++ ";\n"
  else if info.url ≠ [] then "\tQString __path = " ++ expr info.url ++ ";\n"
  else "\tQString __path;\n"

/-- The text written by `writeMethodPath`. -/
def methodPathText (info : MethodInfo) : QString :=
  if hasPath info then pathDeclaration info ++ perEntry info.pathParams pathAppend ++ "\n"
  else []

/-- The statement written for one query parameter. -/
def paramInsert (param : MethodInfo.Parameter) : QString :=
  "\t__params.insert(\"" ++ param.name ++ "\", " ++ param.name ++ ");\n"

/-- The statement written for one header of a method. -/
def headerInsert (jt : QString × QString) : QString :=
  "\t__headers.insert(\"" ++ jt.1 ++ "\", " ++ expr jt.2 ++ ");\n"

/-- The arguments of `call` that precede `__params`: the verb, the path if `__path` is declared
and the body if the method has one. -/
def callArguments (info : MethodInfo) : QString :=
  expr info.verb ++ ", "
    ++ (if hasPath info then
          (if info.url ≠ [] then ("QUrl(__path), " : QString) else ("__path, " : QString))
        else [])
    ++ (if info.body ≠ [] then ("__body, " : QString) else [])

/-- The `call` statement of a method definition. -/
def methodCall (info : MethodInfo) : QString :=
  "\n\tauto __reply = _restClass->call<" ++ info.returns ++ ", " ++ info.except ++ ">("
    ++ callArguments info ++ "__params, __headers);\n"

/-- The block that forwards the errors of a reply to `apiError` and to the error translator. -/
def errorForwarding (className : QString) (info : MethodInfo) : QString :=
  "\tQPointer<" ++ className ++ "> __this(this);\n"
    ++ "\t__reply->onAllErrors([__this](QString __e, int __c, RestReply::ErrorType __t)\x7b\n"
    ++ "\t\tif(__this)\n"
    ++ "\t\t\temit __this->apiError(__e, __c, __t);\n"
    ++ "\t\x7d, [__this](" ++ info.except ++ " __o, int __c)\x7b\n"
    ++ "\t\tif(__this && __this->_errorTranslator)\n"
    ++ "\t\t\treturn __this->_errorTranslator(__o, __c);\n"
    ++ "\t\telse\n"
    ++ "\t\t\treturn QString();\n"
    ++ "\t\x7d);\n"

/-- The first lines of the definition of a method: return type, name and parameter list. -/
def methodDefinitionHead (className : QString) (it : QString × MethodInfo) : QString :=
  "\nQtRestClient::GenericRestReply<" ++ it.2.returns ++ ", " ++ it.2.except ++ "> *"
    ++ className ++ "::" ++ it.1 ++ "(" ++ join (methodParameters it.2 false) ", " ++ ")\n"
    ++ "\x7b\n"

/-- The statements of the definition of a method, closing brace included. -/
def methodDefinitionBody (className defaultExcept : QString) (info : MethodInfo) : QString :=
  methodPathText info
    ++ "\tQVariantHash __params;\n"
    ++ perEntry info.parameters paramInsert
    ++ "\tHeaderHash __headers;\n"
    ++ perEntry info.headers headerInsert
    ++ methodCall info
    ++ (if info.except = defaultExcept then errorForwarding className info else [])
    ++ "\treturn __reply;\n"
    ++ "\x7d\n"

/-- The definition that `writeMethodDefinitions` writes for one method. -/
def methodDefinition (className defaultExcept : QString) (it : QString × MethodInfo) :
    QString :=
  methodDefinitionHead className it ++ methodDefinitionBody className defaultExcept it.2

/-! ### The header, part by part -/

/-- The parent class that both generators read from the schema. -/
def parentOf (b : ClassBuilder) : QString :=
  (QJsonObject.value b.root "parent").toString "QObject"

/-- The include list of the header: the includes of the schema followed by the four fixed
ones, as `writeIncludes` writes them. -/
def includeList (b : ClassBuilder) : QString :=
  b.writeIncludes (b.readIncludes b.root ++
    [("QtRestClient/restclient.h" : QString), ("QtRestClient/restclass.h" : QString),
      ("QtCore/qstring.h" : QString), ("QtCore/qstringlist.h" : QString)])

/-- The opening of the class declaration. -/
def classOpening (exportedClassName parent : QString) : QString :=
  "class " ++ exportedClassName ++ " : public " ++ parent ++ "\n"
    ++ "\x7b\n"
    ++ "\tQ_OBJECT\n\n"
    ++ "public:\n"

/-- The declaration of the nested `Factory` up to its sub-class accessors. -/
def factoryDeclarationHead : QString :=
  "\tstatic const QString Path;\n\n"
    ++ "\tclass Factory\n"
    ++ "\t\x7b\n"
    ++ "\tpublic:\n"
    ++ "\t\tFactory(QtRestClient::RestClient *client, const QStringList &parentPath);\n\n"

/-- The declaration of the nested `Factory` after its sub-class accessors. -/
def factoryDeclarationTail (className : QString) : QString :=
  "\t\t" ++ className ++ " *instance(QObject *parent = nullptr) const;\n\n"
    ++ "\tprivate:\n"
    ++ "\t\tQtRestClient::RestClient *client;\n"
    ++ "\t\tQStringList subPath;\n"
    ++ "\t\x7d;\n\n"

/-- The declaration of the nested `Factory`, written by `generateFactoryDeclaration`. -/
def factoryDeclaration (className : QString) (classes : QHash QString) : QString :=
  factoryDeclarationHead ++ perEntry classes factoryAccessorDeclaration ++ blankLine classes
    ++ factoryDeclarationTail className

/-- The declaration of the static `factory()`, written by `generateApi` only. -/
def staticFactoryDeclaration (className : QString) : QString :=
  "\tstatic " ++ className ++ "::Factory factory();\n"

/-- The declaration of the parent-only constructor, written by `generateApi` only. -/
def parentConstructorDeclaration (className : QString) : QString :=
  "\t" ++ className ++ "(QObject *parent = nullptr);\n"

/-- The declarations of the constructor and of the `restClient`/`restClass` accessors. -/
def constructorDeclaration (className : QString) : QString :=
  "\t" ++ className ++ "(QtRestClient::RestClass *restClass, QObject *parent);\n\n"
    ++ "\tQtRestClient::RestClient *restClient() const;\n"
    ++ "\tQtRestClient::RestClass *restClass() const;\n\n"

/-- The declaration of `setErrorTranslator`. -/
def setErrorTranslatorDeclaration (defaultExcept : QString) : QString :=
  "\tvoid setErrorTranslator(const std::function<QString(" ++ defaultExcept
    ++ ", int)> &fn);\n\n"

/-- The `apiError` signal. -/
def apiErrorSignal : QString :=
  "Q_SIGNALS:\n"
    ++ "\tvoid apiError(const QString &errorString, int errorCode, QtRestClient::RestReply::ErrorType errorType);\n\n"

/-- The private members that every class has: `_restClass` and `_errorTranslator`. -/
def privateMembersHead (defaultExcept : QString) : QString :=
  "private:\n"
    ++ "\tQtRestClient::RestClass *_restClass;\n"
    ++ "\tstd::function<QString(" ++ defaultExcept ++ ", int)> _errorTranslator;\n"

/-- The declaration of the static `generateClient()`, written by `generateApi` only. -/
def generateClientDeclaration : QString :=
  "\n\tstatic QtRestClient::RestClient *generateClient();\n"

/-- The end of the class declaration. -/
def classClosing : QString := "\x7d;\n\n"

/-- The header text of a schema that was read into `s`, for either generator. -/
def headerText (api : Bool) (s : ClassBuilder) : QString :=
  includeList s
    ++ classOpening s.exportedClassName (parentOf s)
    ++ factoryDeclaration s.className s.classes
    ++ apiOnly api (staticFactoryDeclaration s.className ++ parentConstructorDeclaration s.className)
    ++ constructorDeclaration s.className
    ++ (perEntry s.classes classAccessorDeclaration ++ blankLine s.classes)
    ++ (perEntry s.methods methodDeclaration ++ blankLine s.methods)
    ++ setErrorTranslatorDeclaration s.defaultExcept
    ++ apiErrorSignal
    ++ (privateMembersHead s.defaultExcept ++ perEntry s.classes memberDeclaration)
    ++ apiOnly api generateClientDeclaration
    ++ classClosing

/-! ### The source, part by part -/

/-- The include and namespace prologue of the source. -/
def sourcePrologue (fileName : QString) : QString :=
  "#include \"" ++ fileName ++ ".h\"\n\n"
    ++ "#include <QtCore/qcoreapplication.h>\n"
    ++ "#include <QtCore/qtimer.h>\n"
    ++ "#include <QtCore/qpointer.h>\n"
    ++ "using namespace QtRestClient;\n\n"

/-- The definition of the `Path` constant. -/
def pathConstant (className : QString) (root : QJsonObject) : QString :=
  "const QString " ++ className ++ "::Path("
    ++ expr ((QJsonObject.value root "path").toString []) ++ ");\n"

/-- The definition of the constructor of `Factory`. -/
def factoryConstructorDefinition (className : QString) : QString :=
  "\n" ++ className
    ++ "::Factory::Factory(RestClient *client, const QStringList &parentPath) :\n"
    ++ "\tclient(client),\n"
    ++ "\tsubPath(parentPath)\n"
    ++ "\x7b\n"
    ++ "\tsubPath.append(" ++ className ++ "::Path);\n"
    ++ "\x7d\n"

/-- The definition of `Factory::instance`. -/
def factoryInstanceDefinition (className : QString) : QString :=
  "\n" ++ className ++ " *" ++ className
    ++ "::Factory::instance(QObject *parent) const\n"
    ++ "\x7b\n"
    ++ "\tauto rClass = client->createClass(subPath.join('/'));\n"
    ++ "\treturn new " ++ className ++ "(rClass, parent);\n"
    ++ "\x7d\n"

/-- The definitions of the nested `Factory`, written by `generateFactoryDefinition`. -/
def factoryDefinition (className : QString) (classes : QHash QString) : QString :=
  factoryConstructorDefinition className
    ++ perEntry classes (factoryAccessorDefinition className)
    ++ factoryInstanceDefinition className

/-- The definition of the static `factory()`, written by `generateApi` only. -/
def staticFactoryDefinition (className : QString) : QString :=
  "\n" ++ className ++ "::Factory " ++ className ++ "::factory()\n"
    ++ "\x7b\n"
    ++ "\treturn " ++ className ++ "::Factory(generateClient(), \x7b\x7d);\n"
    ++ "\x7d\n"

/-- The definition of the parent-only constructor, written by `generateApi` only. -/
def parentConstructorDefinition (className : QString) : QString :=
  "\n" ++ className ++ "::" ++ className ++ "(QObject *parent) :\n"
    ++ "\t" ++ className ++ "(generateClient()->createClass(QString()), parent)\n"
    ++ "\x7b\x7d\n"

/-- The first lines of the definition of the constructor, up to the sub-class members. -/
def constructorDefinitionHead (className parent : QString) : QString :=
  "\n" ++ className ++ "::" ++ className
    ++ "(RestClass *restClass, QObject *parent) :\n"
    ++ "\t" ++ parent ++ "(parent)\n"
    ++ "\t,_restClass(restClass)\n"
    ++ "\t,_errorTranslator()\n"

/-- The body of the constructor and the definitions of the two accessors. -/
def constructorDefinitionTail (className : QString) : QString :=
  "\x7b\n"
    ++ "\t_restClass->setParent(this);\n"
    ++ "\x7d\n"
    ++ ("\nRestClient *" ++ className ++ "::restClient() const\n"
    ++ "\x7b\n"
    ++ "\treturn _restClass->client();\n"
    ++ "\x7d\n")
    ++ ("\nRestClass *" ++ className ++ "::restClass() const\n"
    ++ "\x7b\n"
    ++ "\treturn _restClass;\n"
    ++ "\x7d\n")

/-- The definitions of the constructor and of the `restClient`/`restClass` accessors. -/
def constructorDefinition (className parent : QString) (classes : QHash QString) : QString :=
  constructorDefinitionHead className parent ++ perEntry classes memberInitialiser
    ++ constructorDefinitionTail className

/-- The definition of `setErrorTranslator`. -/
def setErrorTranslatorDefinition (className defaultExcept : QString) : QString :=
  "\nvoid " ++ className ++ "::setErrorTranslator(const std::function<QString("
    ++ defaultExcept ++ ", int)> &fn)\n"
    ++ "\x7b\n"
    ++ "\t_errorTranslator = fn;\n"
    ++ "\x7d\n"

/-- The statement written for one global header. -/
def globalHeader (it : QString × QJsonValue) : QString :=
  "\t\tclient->addGlobalHeader(\"" ++ it.1 ++ "\", " ++ expr (it.2.toString []) ++ ");\n"

/-- The statement written for one global parameter. -/
def globalParameter (it : QString × QJsonValue) : QString :=
  "\t\tclient->addGlobalParameter(\"" ++ it.1 ++ "\", " ++ expr (it.2.toString []) ++ ");\n"

/-- The version of the api as `writeApiCreation` reads it. -/
def apiVersionOf (root : QJsonObject) : QString :=
  (QJsonObject.value root "apiVersion").toString []

/-- The statements that create the client, written by `writeApiCreation`. -/
def apiCreation (root : QJsonObject) : QString :=
  "\t\tclient = new RestClient(QCoreApplication::instance());\n"
    ++ "\t\tclient->setBaseUrl(QUrl(" ++ expr ((QJsonObject.value root "baseUrl").toString [])
    ++ "));\n"
    ++ (if apiVersionOf root ≠ [] then
        "\t\tclient->setApiVersion(QVersionNumber::fromString(" ++ expr (apiVersionOf root)
          ++ "));\n"
      else [])
    ++ perEntry (QJsonObject.value root "headers").toObject globalHeader
    ++ perEntry (QJsonObject.value root "parameters").toObject globalParameter

/-- The definition of `generateClient()` with a local static client. -/
def localApiGeneration (className : QString) (root : QJsonObject) : QString :=
  "\nRestClient *" ++ className ++ "::generateClient()\n"
    ++ "\x7b\n"
    ++ "\tstatic QPointer<RestClient> client = nullptr;\n"
    ++ "\tif(!client) \x7b\n"
    ++ apiCreation root
    ++ "\t\x7d\n"
    ++ "\treturn client;\n"
    ++ "\x7d\n"

/-- The definition of `generateClient()` with a client registered under a global name. -/
def globalApiGeneration (className : QString) (root : QJsonObject) (globalName : QString) :
    QString :=
  "\nRestClient *" ++ className ++ "::generateClient()\n"
    ++ "\x7b\n"
    ++ "\tauto client = apiClient(" ++ expr globalName ++ ");\n"
    ++ "\tif(!client) \x7b\n"
    ++ apiCreation root
    ++ "\t\taddGlobalApi(" ++ expr globalName ++ ", client);\n"
    ++ "\t\x7d\n"
    ++ "\treturn client;\n"
    ++ "\x7d\n"

/-- The function that constructs the api when the application starts. -/
def startupFunction (className : QString) : QString :=
  "\nstatic void __" ++ className ++ "_app_construct()\n"
    ++ "\x7b\n"
    ++ "\tQTimer::singleShot(0, &" ++ className ++ "::factory);\n"
    ++ "\x7d\n"
    ++ "Q_COREAPP_STARTUP_FUNCTION(__" ++ className ++ "_app_construct)\n"

/-- The global name of the api as `generateApi` reads it. -/
def globalNameOf (root : QJsonObject) : QString :=
  (QJsonObject.value root "globalName").toString []

/-- Whether the schema asks for the start-up function: `autoCreate`, true unless it is the
boolean `false`. -/
def autoCreateOf (root : QJsonObject) : Bool :=
  (QJsonObject.value root "autoCreate").toBool true

/-- The client-construction code that ends the source of an api. -/
def clientGeneration (className : QString) (root : QJsonObject) : QString :=
  if globalNameOf root ≠ [] then
    globalApiGeneration className root (globalNameOf root)
      ++ (if autoCreateOf root then startupFunction className else [])
  else
    localApiGeneration className root

/-- The source text of a schema that was read into `s`, for either generator. -/
def sourceText (api : Bool) (s : ClassBuilder) : QString :=
  sourcePrologue s.fileName
    ++ pathConstant s.className s.root
    ++ factoryDefinition s.className s.classes
    ++ apiOnly api (staticFactoryDefinition s.className ++ parentConstructorDefinition s.className)
    ++ constructorDefinition s.className (parentOf s) s.classes
    ++ perEntry s.classes (classAccessorDefinition s.className)
    ++ perEntry s.methods (methodDefinition s.className s.defaultExcept)
    ++ setErrorTranslatorDefinition s.className s.defaultExcept
    ++ apiOnly api (clientGeneration s.className s.root)

/-- The builder after `readClasses` and `readMethods`: the schema as read. -/
def schemaRead (b : ClassBuilder) : ClassBuilder :=
  (readMethods (readClasses b)).state

/-! ## The claims in the words of the specification -/

/-- The parameter list of a method as the specification words it: the body as `<body> __body`
first when a body type is set, then the path parameters, then the query parameters, in schema
order; each entry is the text `type name` paired with its default ` = default`, which is empty
for the body and for a parameter without a default value. -/
def specParameters (info : MethodInfo) : List (QString × QString) :=
  (if info.body ≠ [] then [(info.body ++ (" __body" : QString), ([] : QString))] else [])
    ++ (info.pathParams ++ info.parameters).map
      (fun p => (p.type ++ (" " : QString) ++ p.name,
        if p.defaultValue ≠ [] then (" = " : QString) ++ p.defaultValue else []))

/-- The sub-classes of a schema: every member `name -> Type` of `classes`, with the empty text
for a value that is not a string. -/
def schemaClasses (root : QJsonObject) : QHash QString :=
  (QJsonObject.value root "classes").toObject.map (fun it => (it.1, it.2.toString []))

/-- The start-up function is asked for: `globalName` is not empty and `autoCreate` is not the
boolean `false`. -/
def startupAsked (root : QJsonObject) : Prop :=
  globalNameOf root ≠ [] ∧ QJsonObject.value root "autoCreate" ≠ .bool false

/-- An api schema with a sub-class, a method and a global name. -/
def schemaPosts : QJsonObject :=
  [("type", .string "api"),
   ("classes", .object [("posts", .string "PostClass")]),
   ("methods", .object [("post", .object
      [("path", .string "posts/"), ("pathParams", .array [.string "id;int"]),
       ("parameters", .array [.string "limit;int;10"]), ("body", .string "Post")])]),
   ("globalName", .string "posts")]

/-- A class schema whose only method `get` names an error type of its own. -/
def schemaOwnExcept : QJsonObject :=
  [("type", .string "class"),
   ("methods", .object [("get", .object [("except", .string "MyError")])])]

/-- A class schema whose only method `list` sets no field at all. -/
def schemaPlainMethod : QJsonObject :=
  [("type", .string "class"), ("methods", .object [("list", .object [])])]

/-- A schema object that has no member called `key`. -/
def lacks (obj : QJsonObject) (key : QString) : Prop :=
  ∀ m ∈ obj, m.1 ≠ key

/-- The field `key` of a schema object falls back to `fallback`: what is stored is `fallback`
when the object lacks `key`, and the string itself when `key` is present as a string. -/
def fallsBack (obj : QJsonObject) (key fallback stored : QString) : Prop :=
  (lacks obj key → stored = fallback) ∧
    (∀ s : QString, QJsonObject.value obj key = .string s → stored = s)

/-- An api schema with the class-level error type `ApiError` and two methods, of which `plain`
sets no field and `full` sets the verb, the return type and the error type. -/
def schemaDefaults : QJsonObject :=
  [("type", .string "api"), ("except", .string "ApiError"),
   ("methods", .object
     [("full", .object [("verb", .string "PUT"), ("returns", .string "Post"),
        ("except", .string "MyError")]),
      ("plain", .object [])])]

/-! ## The test object

`src/Tests/RestObjectTest/testobject.cpp`. -/

/-- Modelled from the spec: the members of `TestObject`, which `testobject.h` declares and the
sources at hand do not hold; they are the five that the constructors initialise, an `int` being
any integer, a pointer that may be null an `Option`. The `QObject` parent is left out. -/
inductive TestObject where
  | mk (id : Int) (name : QString) (stateMap : List Bool) (child : Option TestObject)
      (relatives : List TestObject)

/-- The member `id`. -/
def TestObject.id : TestObject → Int
  | .mk id _ _ _ _ => id

/-- The member `name`. -/
def TestObject.name : TestObject → QString
  | .mk _ name _ _ _ => name

/-- The member `stateMap`. -/
def TestObject.stateMap : TestObject → List Bool
  | .mk _ _ stateMap _ _ => stateMap

/-- The member `child`. -/
def TestObject.child : TestObject → Option TestObject
  | .mk _ _ _ child _ => child

/-- The member `relatives`. -/
def TestObject.relatives : TestObject → List TestObject
  | .mk _ _ _ _ relatives => relatives

/-- The constructor `TestObject::TestObject(id, name, stateMap, childId, parent)`: it
constructs the child by calling itself with the child id `-1`. -/
def TestObject.create (id : Int) (name : QString) (stateMap : List Bool) (childId : Int) :
    TestObject :=
  .mk id name stateMap
    (if _h : childId > 0 then some (TestObject.create childId [] [] (-1)) else none)
    []
termination_by (if childId > 0 then 1 else 0 : Nat)
decreasing_by
  simp only [_h, if_true]
  simp

/-! # Facts about the embedding -/

/-! ## Basic facts -/

@[simp] theorem hdr_header (b : ClassBuilder) (t : QString) : (b.hdr t).header = b.header ++ t := rfl
@[simp] theorem hdr_source (b : ClassBuilder) (t : QString) : (b.hdr t).source = b.source := rfl
@[simp] theorem src_header (b : ClassBuilder) (t : QString) : (b.src t).header = b.header := rfl
@[simp] theorem src_source (b : ClassBuilder) (t : QString) : (b.src t).source = b.source ++ t := rfl

/-! ### `split` -/

theorem splitAux_length (sep : Char) (s cur : QString) :
    (splitAux sep s cur).length = s.count sep + 1 := by
  induction s generalizing cur with
  | nil => simp [splitAux]
  | cons c cs ih =>
    by_cases h : c = sep
    · subst h; simp [splitAux, ih]
    · have h2 : (c == sep) = false := by simpa using h
      simp [splitAux, h, ih, List.count_cons, h2]

theorem splitAux_no_sep (sep : Char) (s cur : QString) (h : sep ∉ s) :
    splitAux sep s cur = [cur ++ s] := by
  induction s generalizing cur with
  | nil => simp [splitAux]
  | cons c cs ih =>
    have hc : c ≠ sep := fun e => h (by simp [e])
    have hcs : sep ∉ cs := fun e => h (by simp [e])
    simp [splitAux, hc, ih _ hcs]

theorem splitAux_append_sep (sep : Char) (s rest cur : QString) (h : sep ∉ s) :
    splitAux sep (s ++ sep :: rest) cur = (cur ++ s) :: splitAux sep rest [] := by
  induction s generalizing cur with
  | nil => simp [splitAux]
  | cons c cs ih =>
    have hc : c ≠ sep := fun e => h (by simp [e])
    have hcs : sep ∉ cs := fun e => h (by simp [e])
    simp [splitAux, hc, ih _ hcs]

/-! ### Parameters -/

theorem create_error_iff (data : QString) :
    MethodInfo.Parameter.create data = .error paramFormatError ↔
      ¬ (data.count ';' = 1 ∨ data.count ';' = 2) := by
  unfold MethodInfo.Parameter.create
  simp only [split, splitAux_length]
  split
  · constructor
    · intro _; omega
    · intro _; rfl
  · constructor
    · intro h; cases h
    · intro h; omega

theorem create_ok_or_error (data : QString) :
    (∃ p, MethodInfo.Parameter.create data = .ok p) ∨
      MethodInfo.Parameter.create data = .error paramFormatError := by
  unfold MethodInfo.Parameter.create
  simp only []
  split
  · exact Or.inr rfl
  · exact Or.inl ⟨_, rfl⟩

/-! ### `readParams`, `readMethod` -/

theorem readParams_error (a : QJsonArray) (e : QString) (h : readParams a = .error e) :
    e = paramFormatError := by
  induction a generalizing e with
  | nil => simp [readParams] at h
  | cons v rest ih =>
    unfold readParams at h
    rcases create_ok_or_error (v.toString []) with ⟨p, hp⟩ | hp
    · rw [hp] at h
      cases hr : readParams rest with
      | error e2 => rw [hr] at h; simp at h; rw [← h]; exact ih _ hr
      | ok ps => rw [hr] at h; simp at h
    · rw [hp] at h; simp at h; exact h.symm

theorem readParams_of_malformed (a : QJsonArray) (v : QJsonValue) (hv : v ∈ a)
    (hbad : MethodInfo.Parameter.create (v.toString []) = .error paramFormatError) :
    readParams a = .error paramFormatError := by
  induction a with
  | nil => simp at hv
  | cons w rest ih =>
    unfold readParams
    rcases create_ok_or_error (w.toString []) with ⟨p, hp⟩ | hp
    · rw [hp]
      have hv2 : v ∈ rest := by
        rcases List.mem_cons.1 hv with h | h
        · subst h; rw [hp] at hbad; cases hbad
        · exact h
      simp [ih hv2]
    · rw [hp]

theorem readParams_ok_of_all (a : QJsonArray)
    (h : ∀ v ∈ a, ∃ p, MethodInfo.Parameter.create (v.toString []) = .ok p) :
    ∃ ps, readParams a = .ok ps := by
  induction a with
  | nil => exact ⟨[], rfl⟩
  | cons w rest ih =>
    obtain ⟨p, hp⟩ := h w (by simp)
    obtain ⟨ps, hps⟩ := ih (fun v hv => h v (by simp [hv]))
    exact ⟨p :: ps, by simp [readParams, hp, hps]⟩

theorem readMethod_pathUrl (de : QString) (obj : QJsonObject)
    (hp : methodPath obj ≠ []) (hu : methodUrl obj ≠ []) :
    readMethod de obj = .error pathUrlError := by
  unfold methodPath at hp
  unfold methodUrl at hu
  unfold readMethod
  simp only []
  rw [if_pos ⟨hp, hu⟩]

theorem readMethod_error (de : QString) (obj : QJsonObject) (e : QString)
    (h : readMethod de obj = .error e) : e = pathUrlError ∨ e = paramFormatError := by
  unfold readMethod at h
  simp only [] at h
  split at h
  · left; simpa using h.symm
  · right
    split at h
    · rename_i e2 he2
      have := readParams_error _ _ he2
      simp at h; rw [← h]; exact this
    · split at h
      · rename_i e2 he2
        have := readParams_error _ _ he2
        simp at h; rw [← h]; exact this
      · cases h

theorem readMethod_ok_path_url (de : QString) (obj : QJsonObject) (info : MethodInfo)
    (h : readMethod de obj = .ok info) : info.path = [] ∨ info.url = [] := by
  unfold readMethod at h
  simp only [] at h
  split at h
  · cases h
  · rename_i hne
    split at h
    · cases h
    · split at h
      · cases h
      · simp at h
        rw [← h]
        simp only []
        by_cases hp : (QJsonObject.value obj "path").toString MethodInfo.create.path = []
        · exact Or.inl hp
        · right
          by_contra hu
          exact hne ⟨hp, hu⟩

theorem readMethod_of_malformed (de : QString) (obj : QJsonObject) (v : QJsonValue)
    (hv : v ∈ (QJsonObject.value obj "pathParams").toArray ∨
      v ∈ (QJsonObject.value obj "parameters").toArray)
    (hbad : MethodInfo.Parameter.create (v.toString []) = .error paramFormatError) :
    ∃ e, readMethod de obj = .error e := by
  unfold readMethod
  simp only []
  split
  · exact ⟨_, rfl⟩
  · split
    · exact ⟨_, rfl⟩
    · rename_i ps hps
      split
      · exact ⟨_, rfl⟩
      · rename_i qs hqs
        rcases hv with hv | hv
        · rw [readParams_of_malformed _ v hv hbad] at hps; cases hps
        · rw [readParams_of_malformed _ v hv hbad] at hqs; cases hqs

/-! ### `readClasses`, `readMethods` -/

theorem readClasses_fold (cls : QJsonObject) (b : ClassBuilder) :
    cls.foldl (fun b it => { b with classes := b.classes.insert it.1 (it.2.toString []) }) b =
      { b with classes := cls.foldl (fun h it => h.insert it.1 (it.2.toString [])) b.classes } := by
  induction cls generalizing b with
  | nil => rfl
  | cons it rest ih => simp only [List.foldl_cons]; rw [ih]

@[simp] theorem readClasses_header (b : ClassBuilder) : (readClasses b).header = b.header := by
  unfold readClasses; simp only []; rw [readClasses_fold]

@[simp] theorem readClasses_source (b : ClassBuilder) : (readClasses b).source = b.source := by
  unfold readClasses; simp only []; rw [readClasses_fold]

@[simp] theorem readClasses_root (b : ClassBuilder) : (readClasses b).root = b.root := by
  unfold readClasses; simp only []; rw [readClasses_fold]

theorem readMethodsLoop_frame (l : QJsonObject) (b : ClassBuilder) :
    (readMethodsLoop l b).state = { b with methods := (readMethodsLoop l b).state.methods } := by
  induction l generalizing b with
  | nil => rfl
  | cons it rest ih =>
    unfold readMethodsLoop
    split
    · rfl
    · rw [ih]

theorem readMethodsLoop_thrown (l : QJsonObject) (b : ClassBuilder) (e : QString)
    (h : (readMethodsLoop l b).thrown = some e) : e = pathUrlError ∨ e = paramFormatError := by
  induction l generalizing b with
  | nil => simp [readMethodsLoop] at h
  | cons it rest ih =>
    unfold readMethodsLoop at h
    split at h
    · rename_i e2 he2
      simp at h; rw [← h]; exact readMethod_error _ _ _ he2
    · exact ih _ h

theorem readMethodsLoop_fails (pre post : QJsonObject) (m : QString × QJsonValue)
    (b : ClassBuilder) (hm : ∀ de, ∃ e, readMethod de m.2.toObject = .error e) :
    (readMethodsLoop (pre ++ m :: post) b).thrown ≠ none := by
  induction pre generalizing b with
  | nil =>
    obtain ⟨e, he⟩ := hm b.defaultExcept
    simp [readMethodsLoop, he]
  | cons it rest ih =>
    simp only [List.cons_append]
    unfold readMethodsLoop
    split
    · simp
    · exact ih _

theorem readMethodsLoop_pathUrl (pre post : QJsonObject) (m : QString × QJsonValue)
    (b : ClassBuilder) (hp : methodPath m.2.toObject ≠ []) (hu : methodUrl m.2.toObject ≠ [])
    (hpre : ∀ it ∈ pre, ∀ v, (v ∈ (QJsonObject.value it.2.toObject "pathParams").toArray ∨
        v ∈ (QJsonObject.value it.2.toObject "parameters").toArray) →
        ∃ p, MethodInfo.Parameter.create (v.toString []) = .ok p) :
    (readMethodsLoop (pre ++ m :: post) b).thrown = some pathUrlError := by
  induction pre generalizing b with
  | nil => simp [readMethodsLoop, readMethod_pathUrl _ _ hp hu]
  | cons it rest ih =>
    simp only [List.cons_append]
    unfold readMethodsLoop
    split
    · rename_i e he
      rcases readMethod_error _ _ _ he with h | h
      · rw [h]
      · exfalso
        obtain ⟨ps, hps⟩ := readParams_ok_of_all (QJsonObject.value it.2.toObject "pathParams").toArray
          (fun v hv => hpre it (by simp) v (Or.inl hv))
        obtain ⟨qs, hqs⟩ := readParams_ok_of_all (QJsonObject.value it.2.toObject "parameters").toArray
          (fun v hv => hpre it (by simp) v (Or.inr hv))
        unfold readMethod at he
        simp only [hps, hqs] at he
        split at he
        · rw [h] at he
          have he2 : pathUrlError = paramFormatError := by simpa using he
          exact absurd he2 (by decide)
        · cases he
    · exact ih _ (fun it2 h2 => hpre it2 (by simp [h2]))

theorem readMethodsLoop_invariant (P : MethodInfo → Prop)
    (hP : ∀ de obj info, readMethod de obj = .ok info → P info)
    (l : QJsonObject) (b : ClassBuilder) (hb : ∀ e ∈ b.methods, P e.2) :
    ∀ e ∈ (readMethodsLoop l b).state.methods, P e.2 := by
  induction l generalizing b with
  | nil => exact hb
  | cons it rest ih =>
    unfold readMethodsLoop
    split
    · exact hb
    · rename_i info hinfo
      apply ih
      intro e he
      simp only [QHash.insert] at he
      split at he
      · rcases List.mem_map.1 he with ⟨e0, he0, rfl⟩
        split
        · exact hP _ _ _ hinfo
        · exact hb _ he0
      · rcases List.mem_append.1 he with h | h
        · exact hb _ h
        · simp at h; rw [h]; exact hP _ _ _ hinfo

@[simp] theorem readMethods_header (b : ClassBuilder) : (readMethods b).state.header = b.header := by
  unfold readMethods; simp only []; rw [readMethodsLoop_frame]

@[simp] theorem readMethods_source (b : ClassBuilder) : (readMethods b).state.source = b.source := by
  unfold readMethods; simp only []; rw [readMethodsLoop_frame]

theorem readMethods_thrown (b : ClassBuilder) (e : QString)
    (h : (readMethods b).thrown = some e) : e = pathUrlError ∨ e = paramFormatError :=
  readMethodsLoop_thrown _ _ e h

/-! ### The generators up to the first write -/

theorem generateClass_thrown (b : ClassBuilder) :
    (generateClass b).thrown = (readMethods (readClasses b)).thrown := by
  unfold generateClass
  simp only []
  split
  · rename_i e b1 h; rw [h]
  · rename_i b1 h; rw [h]

theorem generateApi_thrown (b : ClassBuilder) :
    (generateApi b).thrown = (readMethods (readClasses b)).thrown := by
  unfold generateApi
  simp only []
  split
  · rename_i e b1 h; rw [h]
  · rename_i b1 h; rw [h]

theorem generateClass_of_thrown (b : ClassBuilder) (h : (generateClass b).thrown ≠ none) :
    generateClass b = readMethods (readClasses b) := by
  unfold generateClass at h ⊢
  simp only [] at h ⊢
  split
  · rename_i e b1 h1; rw [h1]
  · rename_i b1 h1; rw [h1] at h; simp at h

theorem generateApi_of_thrown (b : ClassBuilder) (h : (generateApi b).thrown ≠ none) :
    generateApi b = readMethods (readClasses b) := by
  unfold generateApi at h ⊢
  simp only [] at h ⊢
  split
  · rename_i e b1 h1; rw [h1]
  · rename_i b1 h1; rw [h1] at h; simp at h

theorem build_api (b : ClassBuilder) (h : rootType b = ("api" : QString)) :
    build b = generateApi b := by
  unfold rootType at h
  unfold build
  rw [if_pos h]

theorem build_class (b : ClassBuilder) (h : rootType b = ("class" : QString)) :
    build b = generateClass b := by
  unfold rootType at h
  unfold build
  rw [h, if_neg (by decide), if_pos rfl]

theorem build_other (b : ClassBuilder) (h1 : rootType b ≠ ("api" : QString))
    (h2 : rootType b ≠ ("class" : QString)) : build b = ⟨some typeError, b⟩ := by
  unfold rootType at h1 h2
  unfold build
  rw [if_neg h1, if_neg h2]

theorem build_thrown_of_type (b : ClassBuilder)
    (h : rootType b = ("api" : QString) ∨ rootType b = ("class" : QString)) :
    (build b).thrown = (readMethods (readClasses b)).thrown := by
  rcases h with h | h
  · rw [build_api b h, generateApi_thrown]
  · rw [build_class b h, generateClass_thrown]

/-! ## What the writers append -/

@[simp] theorem hdr_toRestBuilder_root (b : ClassBuilder) (t : QString) :
    (b.hdr t).root = b.root := rfl
@[simp] theorem hdr_fileName (b : ClassBuilder) (t : QString) :
    (b.hdr t).fileName = b.fileName := rfl
@[simp] theorem hdr_className (b : ClassBuilder) (t : QString) :
    (b.hdr t).className = b.className := rfl
@[simp] theorem hdr_exportedClassName (b : ClassBuilder) (t : QString) :
    (b.hdr t).exportedClassName = b.exportedClassName := rfl
@[simp] theorem hdr_readIncludes (b : ClassBuilder) (t : QString) :
    (b.hdr t).readIncludes = b.readIncludes := rfl
@[simp] theorem hdr_writeIncludes (b : ClassBuilder) (t : QString) :
    (b.hdr t).writeIncludes = b.writeIncludes := rfl
@[simp] theorem hdr_classes (b : ClassBuilder) (t : QString) :
    (b.hdr t).classes = b.classes := rfl
@[simp] theorem hdr_methods (b : ClassBuilder) (t : QString) :
    (b.hdr t).methods = b.methods := rfl
@[simp] theorem hdr_defaultExcept (b : ClassBuilder) (t : QString) :
    (b.hdr t).defaultExcept = b.defaultExcept := rfl
@[simp] theorem src_toRestBuilder_root (b : ClassBuilder) (t : QString) :
    (b.src t).root = b.root := rfl
@[simp] theorem src_fileName (b : ClassBuilder) (t : QString) :
    (b.src t).fileName = b.fileName := rfl
@[simp] theorem src_className (b : ClassBuilder) (t : QString) :
    (b.src t).className = b.className := rfl
@[simp] theorem src_classes (b : ClassBuilder) (t : QString) :
    (b.src t).classes = b.classes := rfl
@[simp] theorem src_methods (b : ClassBuilder) (t : QString) :
    (b.src t).methods = b.methods := rfl
@[simp] theorem src_defaultExcept (b : ClassBuilder) (t : QString) :
    (b.src t).defaultExcept = b.defaultExcept := rfl

theorem hdr_hdr (b : ClassBuilder) (s t : QString) : (b.hdr s).hdr t = b.hdr (s ++ t) := by
  simp [ClassBuilder.hdr]

theorem src_src (b : ClassBuilder) (s t : QString) : (b.src s).src t = b.src (s ++ t) := by
  simp [ClassBuilder.src]

theorem src_hdr (b : ClassBuilder) (s t : QString) : (b.src s).hdr t = (b.hdr t).src s := rfl

theorem hdr_nil (b : ClassBuilder) : b.hdr [] = b := by
  simp [ClassBuilder.hdr]

theorem src_nil (b : ClassBuilder) : b.src [] = b := by
  simp [ClassBuilder.src]

theorem foldl_hdr {α : Type} (f : α → QString) (l : List α) (b : ClassBuilder) :
    l.foldl (fun b x => b.hdr (f x)) b = b.hdr (perEntry l f) := by
  induction l generalizing b with
  | nil => simp [perEntry, hdr_nil]
  | cons x rest ih =>
    simp only [List.foldl_cons]
    rw [ih, hdr_hdr]
    simp [perEntry]

theorem foldl_src {α : Type} (g : ClassBuilder → α → QString)
    (hg : ∀ b t x, g (b.src t) x = g b x) (l : List α) (b : ClassBuilder) :
    l.foldl (fun b x => b.src (g b x)) b = b.src (perEntry l (g b)) := by
  induction l generalizing b with
  | nil => simp [perEntry, src_nil]
  | cons x rest ih =>
    simp only [List.foldl_cons]
    rw [ih, src_src]
    have : g (b.src (g b x)) = g b := by
      funext y; exact hg _ _ _
    rw [this]
    simp [perEntry]

theorem blankLine_eq {α : Type} [DecidableEq α] (b : ClassBuilder) (t : QString)
    (entries : List α) :
    (if entries ≠ [] then (b.hdr t).hdr ['\n'] else b.hdr t) = b.hdr (t ++ blankLine entries) := by
  cases entries with
  | nil => simp [blankLine]
  | cons e rest => simp [blankLine, hdr_hdr]

theorem writeFactoryDeclarations_eq (b : ClassBuilder) :
    writeFactoryDeclarations b =
      b.hdr (perEntry b.classes factoryAccessorDeclaration ++ blankLine b.classes) := by
  have h := foldl_hdr factoryAccessorDeclaration b.classes b
  unfold writeFactoryDeclarations
  simp only []
  unfold factoryAccessorDeclaration at h
  rw [h]
  exact blankLine_eq b _ b.classes

theorem writeClassDeclarations_eq (b : ClassBuilder) :
    writeClassDeclarations b =
      b.hdr (perEntry b.classes classAccessorDeclaration ++ blankLine b.classes) := by
  have h := foldl_hdr classAccessorDeclaration b.classes b
  unfold writeClassDeclarations
  simp only []
  unfold classAccessorDeclaration at h
  rw [h]
  exact blankLine_eq b _ b.classes

theorem writeMemberDeclarations_eq (b : ClassBuilder) :
    writeMemberDeclarations b = b.hdr (perEntry b.classes memberDeclaration) :=
  foldl_hdr memberDeclaration b.classes b

theorem writeFactoryDefinitions_eq (b : ClassBuilder) :
    writeFactoryDefinitions b =
      b.src (perEntry b.classes (factoryAccessorDefinition b.className)) :=
  foldl_src (fun b it => factoryAccessorDefinition b.className it) (fun _ _ _ => rfl) b.classes b

theorem writeMemberDefinitions_eq (b : ClassBuilder) :
    writeMemberDefinitions b = b.src (perEntry b.classes memberInitialiser) :=
  foldl_src (fun _ it => memberInitialiser it) (fun _ _ _ => rfl) b.classes b

theorem writeClassDefinitions_eq (b : ClassBuilder) :
    writeClassDefinitions b =
      b.src (perEntry b.classes (classAccessorDefinition b.className)) :=
  foldl_src (fun b it => classAccessorDefinition b.className it) (fun _ _ _ => rfl) b.classes b

theorem foldl_src_const {α : Type} (f : α → QString) (l : List α) (b : ClassBuilder) :
    l.foldl (fun b x => b.src (f x)) b = b.src (perEntry l f) :=
  foldl_src (fun _ x => f x) (fun _ _ _ => rfl) l b

theorem ite_src (c : Prop) [Decidable c] (b : ClassBuilder) (t : QString) :
    (if c then b.src t else b) = b.src (if c then t else []) := by
  split <;> simp [src_nil]

theorem ite_src_src (c : Prop) [Decidable c] (b : ClassBuilder) (s t : QString) :
    (if c then b.src s else b.src t) = b.src (if c then s else t) := by
  split <;> rfl

theorem writeMethodDeclaration_eq (b : ClassBuilder) (key : QString) (info : MethodInfo) :
    writeMethodDeclaration b key info = b.hdr (methodDeclaration (key, info)) := by
  unfold writeMethodDeclaration methodDeclaration
  simp only [hdr_hdr, List.append_assoc]

theorem writeMethodDeclarations_eq (b : ClassBuilder) :
    writeMethodDeclarations b =
      b.hdr (perEntry b.methods methodDeclaration ++ blankLine b.methods) := by
  have h := foldl_hdr methodDeclaration b.methods b
  have hf : (fun (b : ClassBuilder) (it : QString × MethodInfo) =>
      writeMethodDeclaration b it.1 it.2) = (fun b it => b.hdr (methodDeclaration it)) := by
    funext b it
    exact writeMethodDeclaration_eq b it.1 it.2
  unfold writeMethodDeclarations
  simp only []
  rw [hf, h]
  exact blankLine_eq b _ b.methods

theorem writeMethodPath_eq (b : ClassBuilder) (info : MethodInfo) :
    writeMethodPath b info = (b.src (methodPathText info), hasPath info) := by
  have key : ∀ s : QString,
      ((info.pathParams.foldl (fun b param => b.src (pathAppend param)) (b.src s)).src "\n",
        true) = (b.src (s ++ perEntry info.pathParams pathAppend ++ "\n"), true) := by
    intro s
    rw [foldl_src_const, src_src, src_src, List.append_assoc]
  unfold writeMethodPath methodPathText hasPath pathDeclaration
  by_cases hp : info.path = []
  · by_cases hu : info.url = []
    · by_cases hq : info.pathParams = []
      · simp [hp, hu, hq, src_nil]
      · simp only [hp, hu, hq, ne_eq, not_true_eq_false, not_false_eq_true, if_true, if_false,
          false_or, or_false, decide_True]
        exact key _
    · simp only [hp, hu, ne_eq, not_true_eq_false, not_false_eq_true, if_true, if_false,
        false_or, true_or, decide_True]
      exact key _
  · simp only [hp, ne_eq, not_false_eq_true, if_true, true_or, decide_True]
    exact key _

theorem writeMethodDefinition_eq (b : ClassBuilder) (key : QString) (info : MethodInfo) :
    writeMethodDefinition b key info =
      b.src (methodDefinition b.className b.defaultExcept (key, info)) := by
  have hp := foldl_src_const paramInsert info.parameters
  have hh := foldl_src_const headerInsert info.headers
  unfold writeMethodDefinition
  lift_lets
  intro b1 ps b2 path b3 hasP b4 b5 b6 b7 b8 b9 b10 b11 b12
  have e2 : b2 = b.src (methodDefinitionHead b.className (key, info)) := by
    simp only [b2, b1, ps, src_src, methodDefinitionHead, List.append_assoc]
  have e3 : b3 = b.src (methodDefinitionHead b.className (key, info) ++ methodPathText info) := by
    simp only [b3, path, writeMethodPath_eq, e2, src_src]
  have eP : hasP = hasPath info := by
    simp only [hasP, path, writeMethodPath_eq]
  have e5 : b5 = b.src (methodDefinitionHead b.className (key, info) ++ methodPathText info
      ++ "\tQVariantHash __params;\n" ++ perEntry info.parameters paramInsert) := by
    have : b5 = b4.src (perEntry info.parameters paramInsert) := hp b4
    rw [this]
    simp only [b4, e3, src_src]
  have e7 : b7 = b.src (methodDefinitionHead b.className (key, info) ++ methodPathText info
      ++ "\tQVariantHash __params;\n" ++ perEntry info.parameters paramInsert
      ++ "\tHeaderHash __headers;\n" ++ perEntry info.headers headerInsert) := by
    have : b7 = b6.src (perEntry info.headers headerInsert) := hh b6
    rw [this]
    simp only [b6, e5, src_src]
  have e9 : b9 = b8.src (if hasPath info then
      (if info.url ≠ [] then ("QUrl(__path), " : QString) else ("__path, " : QString))
      else []) := by
    simp only [b9, eP, ite_src, ite_src_src]
  have e10 : b10 = b9.src (if info.body ≠ [] then ("__body, " : QString) else []) := by
    simp only [b10, ite_src]
  have e11 : b11 = b.src (methodDefinitionHead b.className (key, info) ++ methodPathText info
      ++ "\tQVariantHash __params;\n" ++ perEntry info.parameters paramInsert
      ++ "\tHeaderHash __headers;\n" ++ perEntry info.headers headerInsert
      ++ methodCall info) := by
    rw [show b11 = b10.src ("__params, __headers);\n" : QString) from rfl, e10, e9]
    simp only [b8, e7, src_src, methodCall, callArguments, List.append_assoc]
  have e12 : b12 = b11.src
      (if info.except = b.defaultExcept then errorForwarding b.className info else []) := by
    simp only [b12, ite_src, e11, src_className, src_defaultExcept, errorForwarding]
  rw [e12, e11, src_src, src_src]
  simp only [methodDefinition, methodDefinitionBody, List.append_assoc]

theorem writeMethodDefinitions_eq (b : ClassBuilder) :
    writeMethodDefinitions b =
      b.src (perEntry b.methods (methodDefinition b.className b.defaultExcept)) := by
  have h := foldl_src (fun b it => methodDefinition b.className b.defaultExcept it)
    (fun _ _ _ => rfl) b.methods b
  have hf : (fun (b : ClassBuilder) (it : QString × MethodInfo) =>
      writeMethodDefinition b it.1 it.2) =
      (fun b it => b.src (methodDefinition b.className b.defaultExcept it)) := by
    funext b it
    exact writeMethodDefinition_eq b it.1 it.2
  unfold writeMethodDefinitions
  rw [hf, h]

theorem generateFactoryDeclaration_eq (b : ClassBuilder) :
    generateFactoryDeclaration b = b.hdr (factoryDeclaration b.className b.classes) := by
  unfold generateFactoryDeclaration
  simp only [writeFactoryDeclarations_eq, hdr_hdr, hdr_classes, hdr_className]
  simp only [factoryDeclaration, factoryDeclarationHead, factoryDeclarationTail,
    List.append_assoc]

theorem writeClassBeginDeclaration_eq (b : ClassBuilder) (parent : QString) :
    writeClassBeginDeclaration b parent =
      b.hdr (includeList b ++ classOpening b.exportedClassName parent
        ++ factoryDeclaration b.className b.classes) := by
  unfold writeClassBeginDeclaration
  simp only [generateFactoryDeclaration_eq, hdr_hdr, hdr_classes, hdr_className,
    hdr_exportedClassName, hdr_readIncludes, hdr_writeIncludes, hdr_toRestBuilder_root]
  simp only [includeList, classOpening, List.append_assoc, List.singleton_append,
    List.cons_append, List.nil_append]

theorem writeClassMainDeclaration_eq (b : ClassBuilder) :
    writeClassMainDeclaration b =
      b.hdr (constructorDeclaration b.className
        ++ (perEntry b.classes classAccessorDeclaration ++ blankLine b.classes)
        ++ (perEntry b.methods methodDeclaration ++ blankLine b.methods)
        ++ setErrorTranslatorDeclaration b.defaultExcept
        ++ apiErrorSignal
        ++ (privateMembersHead b.defaultExcept ++ perEntry b.classes memberDeclaration)) := by
  unfold writeClassMainDeclaration
  simp only [writeClassDeclarations_eq, writeMethodDeclarations_eq, writeMemberDeclarations_eq,
    hdr_hdr, hdr_classes, hdr_className, hdr_methods, hdr_defaultExcept]
  simp only [constructorDeclaration, setErrorTranslatorDeclaration, apiErrorSignal,
    privateMembersHead, List.append_assoc]

theorem generateFactoryDefinition_eq (b : ClassBuilder) :
    generateFactoryDefinition b = b.src (factoryDefinition b.className b.classes) := by
  unfold generateFactoryDefinition
  simp only [writeFactoryDefinitions_eq, src_src, src_classes, src_className]
  simp only [factoryDefinition, factoryConstructorDefinition, factoryInstanceDefinition,
    List.append_assoc]

theorem writeClassBeginDefinition_eq (b : ClassBuilder) :
    writeClassBeginDefinition b =
      b.src (sourcePrologue b.fileName ++ pathConstant b.className b.root
        ++ factoryDefinition b.className b.classes) := by
  unfold writeClassBeginDefinition
  simp only [generateFactoryDefinition_eq, src_src, src_classes, src_className]
  simp only [sourcePrologue, pathConstant, List.append_assoc]

theorem writeClassMainDefinition_eq (b : ClassBuilder) (parent : QString) :
    writeClassMainDefinition b parent =
      b.src (constructorDefinition b.className parent b.classes
        ++ perEntry b.classes (classAccessorDefinition b.className)
        ++ perEntry b.methods (methodDefinition b.className b.defaultExcept)
        ++ setErrorTranslatorDefinition b.className b.defaultExcept) := by
  unfold writeClassMainDefinition
  simp only [writeMemberDefinitions_eq, writeClassDefinitions_eq, writeMethodDefinitions_eq,
    src_src, src_classes, src_className, src_methods, src_defaultExcept]
  simp only [constructorDefinition, constructorDefinitionHead, constructorDefinitionTail,
    setErrorTranslatorDefinition, List.append_assoc]

theorem writeApiCreation_eq (b : ClassBuilder) :
    writeApiCreation b = b.src (apiCreation b.root) := by
  have hh := foldl_src_const globalHeader (QJsonObject.value b.root "headers").toObject
  have hq := foldl_src_const globalParameter (QJsonObject.value b.root "parameters").toObject
  conv at hh => ext b'; lhs; unfold globalHeader
  conv at hq => ext b'; lhs; unfold globalParameter
  unfold writeApiCreation
  simp only [ite_src, src_toRestBuilder_root, hh, hq]
  simp only [src_src]
  simp only [apiCreation, apiVersionOf, List.append_assoc]

theorem writeLocalApiGeneration_eq (b : ClassBuilder) :
    writeLocalApiGeneration b = b.src (localApiGeneration b.className b.root) := by
  unfold writeLocalApiGeneration
  simp only [writeApiCreation_eq, src_src, src_toRestBuilder_root, src_className]
  simp only [localApiGeneration, List.append_assoc]

theorem writeGlobalApiGeneration_eq (b : ClassBuilder) (globalName : QString) :
    writeGlobalApiGeneration b globalName =
      b.src (globalApiGeneration b.className b.root globalName
        ++ (if autoCreateOf b.root then startupFunction b.className else [])) := by
  unfold writeGlobalApiGeneration
  simp only [writeApiCreation_eq, ite_src, src_toRestBuilder_root, src_className]
  simp only [src_src]
  simp only [globalApiGeneration, startupFunction, autoCreateOf, List.append_assoc]

/-! ## The text of a whole run -/

theorem generateClass_ok (b : ClassBuilder) (h : (readMethods (readClasses b)).thrown = none) :
    generateClass b = ⟨none, ((schemaRead b).hdr (headerText false (schemaRead b))).src
      (sourceText false (schemaRead b))⟩ := by
  unfold generateClass
  simp only []
  split
  · rename_i e b1 h1
    rw [h1] at h
    cases h
  · rename_i b1 h1
    have hs : schemaRead b = b1 := by unfold schemaRead; rw [h1]
    rw [hs]
    simp only [writeClassBeginDeclaration_eq, writeClassMainDeclaration_eq,
      writeClassBeginDefinition_eq, writeClassMainDefinition_eq, hdr_hdr, src_src,
      hdr_classes, hdr_className, hdr_methods, hdr_defaultExcept, hdr_exportedClassName,
      hdr_fileName, hdr_toRestBuilder_root, src_classes, src_className, src_methods,
      src_defaultExcept, src_toRestBuilder_root, src_fileName]
    simp only [headerText, sourceText, apiOnly, parentOf, classClosing, List.append_assoc,
      List.append_nil, List.nil_append, Bool.false_eq_true, if_false]

theorem generateApi_ok (b : ClassBuilder) (h : (readMethods (readClasses b)).thrown = none) :
    generateApi b = ⟨none, ((schemaRead b).hdr (headerText true (schemaRead b))).src
      (sourceText true (schemaRead b))⟩ := by
  have hs : readMethods (readClasses b) = ⟨none, schemaRead b⟩ := by
    unfold schemaRead
    cases hr : readMethods (readClasses b) with
    | mk t s => rw [hr] at h; cases h; rfl
  generalize schemaRead b = b1 at hs ⊢
  unfold generateApi
  lift_lets
  intro b0
  have hs0 : readMethods b0 = ⟨none, b1⟩ := hs
  rw [hs0]
  simp -zeta only []
  lift_lets
  intro parent b2 b3 b4 b5 b6 b7 b8 b9 b10 gn b11
  have e2 : b2 = b1.hdr (includeList b1 ++ classOpening b1.exportedClassName (parentOf b1)
      ++ factoryDeclaration b1.className b1.classes) :=
    writeClassBeginDeclaration_eq b1 parent
  have e4 : b4 = b1.hdr (includeList b1 ++ classOpening b1.exportedClassName (parentOf b1)
      ++ factoryDeclaration b1.className b1.classes
      ++ (staticFactoryDeclaration b1.className ++ parentConstructorDeclaration b1.className)) := by
    simp only [b4, b3, e2, hdr_hdr, hdr_className, staticFactoryDeclaration,
      parentConstructorDeclaration, List.append_assoc]
  have e5 : b5 = b1.hdr (includeList b1 ++ classOpening b1.exportedClassName (parentOf b1)
      ++ factoryDeclaration b1.className b1.classes
      ++ (staticFactoryDeclaration b1.className ++ parentConstructorDeclaration b1.className)
      ++ constructorDeclaration b1.className
      ++ (perEntry b1.classes classAccessorDeclaration ++ blankLine b1.classes)
      ++ (perEntry b1.methods methodDeclaration ++ blankLine b1.methods)
      ++ setErrorTranslatorDeclaration b1.defaultExcept
      ++ apiErrorSignal
      ++ (privateMembersHead b1.defaultExcept ++ perEntry b1.classes memberDeclaration)) := by
    rw [show b5 = writeClassMainDeclaration b4 from rfl, writeClassMainDeclaration_eq, e4]
    simp only [hdr_hdr, hdr_className, hdr_classes, hdr_methods, hdr_defaultExcept,
      List.append_assoc]
  have e6 : b6 = b1.hdr (headerText true b1) := by
    rw [show b6 = b5.hdr (generateClientDeclaration ++ classClosing) from rfl, e5, hdr_hdr]
    simp only [headerText, apiOnly, if_true, List.append_assoc]
  have e7 : b7 = (b1.hdr (headerText true b1)).src (sourcePrologue b1.fileName
      ++ pathConstant b1.className b1.root ++ factoryDefinition b1.className b1.classes) := by
    rw [show b7 = writeClassBeginDefinition b6 from rfl, writeClassBeginDefinition_eq, e6]
    rfl
  have e9 : b9 = (b1.hdr (headerText true b1)).src (sourcePrologue b1.fileName
      ++ pathConstant b1.className b1.root ++ factoryDefinition b1.className b1.classes
      ++ (staticFactoryDefinition b1.className ++ parentConstructorDefinition b1.className)) := by
    simp only [b9, b8, e7, src_src, src_className, hdr_className, staticFactoryDefinition,
      parentConstructorDefinition, List.append_assoc]
  have e10 : b10 = (b1.hdr (headerText true b1)).src (sourcePrologue b1.fileName
      ++ pathConstant b1.className b1.root ++ factoryDefinition b1.className b1.classes
      ++ (staticFactoryDefinition b1.className ++ parentConstructorDefinition b1.className)
      ++ constructorDefinition b1.className (parentOf b1) b1.classes
      ++ perEntry b1.classes (classAccessorDefinition b1.className)
      ++ perEntry b1.methods (methodDefinition b1.className b1.defaultExcept)
      ++ setErrorTranslatorDefinition b1.className b1.defaultExcept) := by
    rw [show b10 = writeClassMainDefinition b9 parent from rfl, writeClassMainDefinition_eq,
      e9]
    simp only [src_src, src_className, src_classes, src_methods, src_defaultExcept,
      hdr_className, hdr_classes, hdr_methods, hdr_defaultExcept, List.append_assoc]
    rfl
  have e11 : b11 = b10.src (clientGeneration b10.className b10.root) := by
    simp only [b11, gn, writeGlobalApiGeneration_eq, writeLocalApiGeneration_eq, ite_src_src,
      clientGeneration, globalNameOf]
  rw [e11, e10]
  simp only [src_src, src_className, src_toRestBuilder_root, hdr_className,
    hdr_toRestBuilder_root, sourceText, apiOnly, if_true, List.append_assoc]

/-! ## The schema as read -/

theorem schemaRead_eq (b : ClassBuilder) :
    schemaRead b = { b with
      classes := (readClasses b).classes
      methods := (schemaRead b).methods
      defaultExcept := (QJsonObject.value b.root "except").toString b.defaultExcept } := by
  unfold schemaRead readMethods
  simp only []
  rw [readMethodsLoop_frame]
  unfold readClasses
  simp only []
  rw [readClasses_fold]

@[simp] theorem schemaRead_header (b : ClassBuilder) : (schemaRead b).header = b.header := by
  rw [schemaRead_eq]
@[simp] theorem schemaRead_source (b : ClassBuilder) : (schemaRead b).source = b.source := by
  rw [schemaRead_eq]
@[simp] theorem schemaRead_root (b : ClassBuilder) : (schemaRead b).root = b.root := by
  rw [schemaRead_eq]
@[simp] theorem schemaRead_className (b : ClassBuilder) :
    (schemaRead b).className = b.className := by
  rw [schemaRead_eq]
@[simp] theorem schemaRead_exportedClassName (b : ClassBuilder) :
    (schemaRead b).exportedClassName = b.exportedClassName := by
  rw [schemaRead_eq]
@[simp] theorem schemaRead_fileName (b : ClassBuilder) :
    (schemaRead b).fileName = b.fileName := by
  rw [schemaRead_eq]
theorem schemaRead_classes (b : ClassBuilder) :
    (schemaRead b).classes = (QJsonObject.value b.root "classes").toObject.foldl
      (fun h it => h.insert it.1 (it.2.toString [])) b.classes := by
  rw [schemaRead_eq]
  unfold readClasses
  simp only []
  rw [readClasses_fold]

theorem insert_fold_fresh (l : QJsonObject) (acc : QHash QString)
    (hl : (l.map (fun it => it.1)).Nodup) (hacc : ∀ e ∈ acc, ∀ it ∈ l, e.1 ≠ it.1) :
    l.foldl (fun h it => h.insert it.1 (it.2.toString [])) acc =
      acc ++ l.map (fun it => (it.1, it.2.toString [])) := by
  induction l generalizing acc with
  | nil => simp
  | cons it rest ih =>
    have hnot : acc.any (fun e => decide (e.1 = it.1)) = false := by
      rw [List.any_eq_false]
      intro e he
      simpa using hacc e he it (by simp)
    simp only [List.map_cons, List.nodup_cons] at hl
    have hins : acc.insert it.1 (it.2.toString []) = acc ++ [(it.1, it.2.toString [])] := by
      simp only [QHash.insert, hnot, Bool.false_eq_true, if_false]
    rw [List.foldl_cons, hins, ih _ hl.2]
    · simp
    · intro e he it2 hit2
      rcases List.mem_append.1 he with h | h
      · exact hacc e h it2 (by simp [hit2])
      · simp only [List.mem_singleton] at h
        rw [h]
        intro heq
        exact hl.1 (List.mem_map.2 ⟨it2, hit2, heq.symm⟩)

theorem schemaRead_classes_fresh (b : ClassBuilder) (hfresh : b.classes = [])
    (hkeys : ((QJsonObject.value b.root "classes").toObject.map (fun it => it.1)).Nodup) :
    (schemaRead b).classes = schemaClasses b.root := by
  rw [schemaRead_classes, hfresh,
    insert_fold_fresh _ _ hkeys (fun e he => absurd he (List.not_mem_nil e))]
  rfl

theorem build_thrown_none (b : ClassBuilder) (h : (build b).thrown = none) :
    (rootType b = ("api" : QString) ∨ rootType b = ("class" : QString)) ∧
      (readMethods (readClasses b)).thrown = none := by
  by_cases ha : rootType b = ("api" : QString)
  · exact ⟨Or.inl ha, by rw [← build_thrown_of_type b (Or.inl ha)]; exact h⟩
  · by_cases hc : rootType b = ("class" : QString)
    · exact ⟨Or.inr hc, by rw [← build_thrown_of_type b (Or.inr hc)]; exact h⟩
    · rw [build_other b ha hc] at h
      cases h

theorem build_ok (b : ClassBuilder) (h : (build b).thrown = none) :
    build b = ⟨none, ((schemaRead b).hdr
      (headerText (decide (rootType b = ("api" : QString))) (schemaRead b))).src
      (sourceText (decide (rootType b = ("api" : QString))) (schemaRead b))⟩ := by
  obtain ⟨ht, hr⟩ := build_thrown_none b h
  by_cases ha : rootType b = ("api" : QString)
  · rw [build_api b ha, generateApi_ok b hr, decide_eq_true ha]
  · have hc : rootType b = ("class" : QString) := by
      rcases ht with h1 | h1
      · exact absurd h1 ha
      · exact h1
    rw [build_class b hc, generateClass_ok b hr, decide_eq_false ha]

theorem build_header (b : ClassBuilder) (h : (build b).thrown = none) :
    (build b).state.header =
      b.header ++ headerText (decide (rootType b = ("api" : QString))) (schemaRead b) := by
  rw [build_ok b h]
  simp

theorem build_source (b : ClassBuilder) (h : (build b).thrown = none) :
    (build b).state.source =
      b.source ++ sourceText (decide (rootType b = ("api" : QString))) (schemaRead b) := by
  rw [build_ok b h]
  simp

theorem foldl_append_singleton {α β : Type} (f : α → β) (l : List α) (init : List β) :
    l.foldl (fun ps x => ps ++ [f x]) init = init ++ l.map f := by
  induction l generalizing init with
  | nil => simp
  | cons x rest ih => simp [ih]

theorem write_eq (p : MethodInfo.Parameter) (withDefault : Bool) :
    p.write withDefault =
      (if withDefault then
        (p.type ++ (" " : QString) ++ p.name) ++
          (if p.defaultValue ≠ [] then (" = " : QString) ++ p.defaultValue else [])
      else p.type ++ (" " : QString) ++ p.name) := by
  cases withDefault <;> by_cases hd : p.defaultValue = [] <;>
    simp [MethodInfo.Parameter.write, hd]

theorem methodParameters_eq (info : MethodInfo) (withDefault : Bool) :
    methodParameters info withDefault =
      (specParameters info).map (fun p => if withDefault then p.1 ++ p.2 else p.1) := by
  have hmap : ∀ l : List MethodInfo.Parameter,
      l.map (fun p => p.write withDefault) =
        (l.map (fun p => (p.type ++ (" " : QString) ++ p.name,
          if p.defaultValue ≠ [] then (" = " : QString) ++ p.defaultValue else []))).map
          (fun p => if withDefault then p.1 ++ p.2 else p.1) := by
    intro l
    rw [List.map_map]
    apply List.map_congr_left
    intro p _
    rw [write_eq]
    rfl
  unfold methodParameters specParameters
  simp only []
  rw [foldl_append_singleton, foldl_append_singleton, List.map_append, List.map_append,
    List.map_append, ← hmap, ← hmap, List.append_assoc]
  congr 1
  by_cases hb : info.body = []
  · simp [hb]
  · cases withDefault <;> simp [hb]

theorem autoCreateOf_eq_true_iff (root : QJsonObject) :
    autoCreateOf root = true ↔ QJsonObject.value root "autoCreate" ≠ .bool false := by
  unfold autoCreateOf
  cases hv : QJsonObject.value root "autoCreate" with
  | bool v => cases v <;> simp [QJsonValue.toBool]
  | _ => simp [QJsonValue.toBool]

theorem methodDefinitions_infix (b : ClassBuilder) (h : (build b).thrown = none) :
    perEntry (schemaRead b).methods (methodDefinition b.className (schemaRead b).defaultExcept)
      <:+: (build b).state.source := by
  rw [build_source b h]
  unfold sourceText
  refine ⟨b.source ++ (sourcePrologue (schemaRead b).fileName
      ++ pathConstant (schemaRead b).className (schemaRead b).root
      ++ factoryDefinition (schemaRead b).className (schemaRead b).classes
      ++ apiOnly (decide (rootType b = ("api" : QString)))
        (staticFactoryDefinition (schemaRead b).className
          ++ parentConstructorDefinition (schemaRead b).className)
      ++ constructorDefinition (schemaRead b).className (parentOf (schemaRead b))
        (schemaRead b).classes
      ++ perEntry (schemaRead b).classes (classAccessorDefinition (schemaRead b).className)),
    setErrorTranslatorDefinition (schemaRead b).className (schemaRead b).defaultExcept
      ++ apiOnly (decide (rootType b = ("api" : QString)))
        (clientGeneration (schemaRead b).className (schemaRead b).root), ?_⟩
  simp only [List.append_assoc, schemaRead_className]

theorem perEntry_infix_of_mem {α : Type} (l : List α) (f : α → QString) (x : α) (hx : x ∈ l) :
    f x <:+: perEntry l f := by
  obtain ⟨pre, post, rfl⟩ := List.append_of_mem hx
  refine ⟨perEntry pre f, perEntry post f, ?_⟩
  simp [perEntry]

theorem methodDefinition_infix (b : ClassBuilder) (h : (build b).thrown = none)
    (it : QString × MethodInfo) (hit : it ∈ (schemaRead b).methods) :
    methodDefinition b.className (schemaRead b).defaultExcept it <:+: (build b).state.source :=
  have hall := methodDefinitions_infix b h
  List.IsInfix.trans (perEntry_infix_of_mem _ _ it hit) hall

theorem hasPath_eq_true_iff (info : MethodInfo) :
    hasPath info = true ↔ (info.path ≠ [] ∨ info.url ≠ [] ∨ info.pathParams ≠ []) := by
  unfold hasPath
  exact decide_eq_true_iff

theorem readParams_entries (a : QJsonArray) (ps : List MethodInfo.Parameter)
    (h : readParams a = .ok ps) :
    List.Forall₂ (fun v p => MethodInfo.Parameter.create (v.toString []) = .ok p) a ps := by
  induction a generalizing ps with
  | nil =>
    simp only [readParams, Except.ok.injEq] at h
    rw [← h]
    exact List.Forall₂.nil
  | cons v rest ih =>
    unfold readParams at h
    cases hp : MethodInfo.Parameter.create (v.toString []) with
    | error e => rw [hp] at h; cases h
    | ok p =>
      rw [hp] at h
      cases hr : readParams rest with
      | error e => rw [hr] at h; cases h
      | ok qs =>
        rw [hr] at h
        simp only [Except.ok.injEq] at h
        rw [← h]
        exact List.Forall₂.cons hp (ih qs hr)

theorem readMethod_ok_fields (de : QString) (obj : QJsonObject) (info : MethodInfo)
    (h : readMethod de obj = .ok info) :
    info.path = (QJsonObject.value obj "path").toString [] ∧
    info.url = (QJsonObject.value obj "url").toString [] ∧
    info.verb = (QJsonObject.value obj "verb").toString "GET" ∧
    readParams (QJsonObject.value obj "pathParams").toArray = .ok info.pathParams ∧
    readParams (QJsonObject.value obj "parameters").toArray = .ok info.parameters ∧
    info.headers = readHeaders (QJsonObject.value obj "headers").toObject ∧
    info.body = (QJsonObject.value obj "body").toString [] ∧
    info.returns = (QJsonObject.value obj "returns").toString "QObject*" ∧
    info.except = (QJsonObject.value obj "except").toString de := by
  unfold readMethod at h
  simp only [] at h
  split at h
  · cases h
  · cases hp : readParams (QJsonObject.value obj "pathParams").toArray with
    | error e => rw [hp] at h; cases h
    | ok ps =>
      rw [hp] at h
      cases hq : readParams (QJsonObject.value obj "parameters").toArray with
      | error e => rw [hq] at h; cases h
      | ok qs =>
        rw [hq] at h
        simp only [Except.ok.injEq] at h
        rw [← h]
        exact ⟨rfl, rfl, rfl, rfl, rfl, rfl, rfl, rfl, rfl⟩

theorem readHeaders_fresh (headers : QJsonObject)
    (hkeys : (headers.map (fun it => it.1)).Nodup) :
    readHeaders headers = headers.map (fun it => (it.1, it.2.toString [])) := by
  unfold readHeaders
  rw [insert_fold_fresh _ _ hkeys (fun e he => absurd he (List.not_mem_nil e))]
  rfl

/-! ## The buffers before a run -/

theorem value_of_lacks (obj : QJsonObject) (key : QString) (h : lacks obj key) :
    QJsonObject.value obj key = .undefined := by
  unfold QJsonObject.value
  have hnone : obj.find? (fun m => decide (m.1 = key)) = none := by
    rw [List.find?_eq_none]
    intro m hm
    simpa using h m hm
  rw [hnone]

theorem fallsBack_of_toString (obj : QJsonObject) (key fallback stored : QString)
    (h : stored = (QJsonObject.value obj key).toString fallback) :
    fallsBack obj key fallback stored := by
  constructor
  · intro hl
    rw [h, value_of_lacks obj key hl]
    rfl
  · intro s hs
    rw [h, hs]
    rfl

theorem readMethodsLoop_defaultExcept (l : QJsonObject) (b : ClassBuilder) :
    (readMethodsLoop l b).state.defaultExcept = b.defaultExcept := by
  rw [readMethodsLoop_frame]

theorem readMethodsLoop_stored (l : QJsonObject) (b : ClassBuilder)
    (hl : (l.map (fun it => it.1)).Nodup) (hb : ∀ e ∈ b.methods, ∀ it ∈ l, e.1 ≠ it.1)
    (hok : (readMethodsLoop l b).thrown = none) :
    ∃ ms : QHash MethodInfo, (readMethodsLoop l b).state.methods = b.methods ++ ms ∧
      List.Forall₂ (fun it e => e.1 = it.1 ∧
        readMethod b.defaultExcept it.2.toObject = .ok e.2) l ms := by
  induction l generalizing b with
  | nil => exact ⟨[], by simp [readMethodsLoop], List.Forall₂.nil⟩
  | cons it rest ih =>
    unfold readMethodsLoop at hok ⊢
    cases hr : readMethod b.defaultExcept it.2.toObject with
    | error e => rw [hr] at hok; cases hok
    | ok info =>
      rw [hr] at hok
      simp only [] at hok ⊢
      simp only [List.map_cons, List.nodup_cons] at hl
      have hnot : b.methods.any (fun e => decide (e.1 = it.1)) = false := by
        rw [List.any_eq_false]
        intro e he
        simpa using hb e he it (by simp)
      have hins : b.methods.insert it.1 info = b.methods ++ [(it.1, info)] := by
        simp only [QHash.insert, hnot, Bool.false_eq_true, if_false]
      have hb' : ∀ e ∈ ({ b with methods := b.methods.insert it.1 info } : ClassBuilder).methods,
          ∀ it2 ∈ rest, e.1 ≠ it2.1 := by
        intro e he it2 hit2
        have he' : e ∈ b.methods ++ [(it.1, info)] := by rw [← hins]; exact he
        rcases List.mem_append.1 he' with h1 | h1
        · exact hb e h1 it2 (by simp [hit2])
        · simp only [List.mem_singleton] at h1
          rw [h1]
          intro heq
          exact hl.1 (List.mem_map.2 ⟨it2, hit2, heq.symm⟩)
      obtain ⟨ms, hms, hall⟩ := ih _ hl.2 hb' hok
      refine ⟨(it.1, info) :: ms, ?_, List.Forall₂.cons ⟨rfl, hr⟩ hall⟩
      rw [hms]
      show b.methods.insert it.1 info ++ ms = _
      rw [hins]
      simp

/-! # The claims -/

/-- C1: `build` looks at the root `type` only. With any type other than "api" and "class", which
covers a missing `type` and a `type` that is not a string, it throws "REST_API_CLASSES must be
either of type api or class" and leaves the builder as it was; with "api" it is `generateApi`,
with "class" it is `generateClass`, and then it does not throw that text. -/
theorem build_dispatches_on_type (b : ClassBuilder) :
    ((rootType b ≠ ("api" : QString) ∧ rootType b ≠ ("class" : QString)) →
      build b = ⟨some typeError, b⟩) ∧
    ((∀ s, QJsonObject.value b.root "type" ≠ .string s) → build b = ⟨some typeError, b⟩) ∧
    (rootType b = ("api" : QString) →
      build b = generateApi b ∧ (build b).thrown ≠ some typeError) ∧
    (rootType b = ("class" : QString) →
      build b = generateClass b ∧ (build b).thrown ≠ some typeError) ∧
    typeError = ("REST_API_CLASSES must be either of type api or class" : QString) := by
  have hne : ∀ e, (readMethods (readClasses b)).thrown = some e → e ≠ typeError := by
    intro e he
    rcases readMethods_thrown _ _ he with h | h <;> rw [h] <;> decide
  refine ⟨fun h => build_other b h.1 h.2, ?_, ?_, ?_, rfl⟩
  · intro h
    have h0 : rootType b = [] := by
      unfold rootType
      cases hv : QJsonObject.value b.root "type" <;> first | rfl | exact absurd hv (h _)
    exact build_other b (by rw [h0]; decide) (by rw [h0]; decide)
  · intro h
    refine ⟨build_api b h, ?_⟩
    rw [build_thrown_of_type b (Or.inl h)]
    exact fun he => hne _ he rfl
  · intro h
    refine ⟨build_class b h, ?_⟩
    rw [build_thrown_of_type b (Or.inr h)]
    exact fun he => hne _ he rfl

/-- C1, on a schema whose `type` is the number 1. -/
theorem build_dispatches_on_type_witness :
    (build (sampleBuilder schemaNoType)).thrown = some typeError := by
  rw [(build_dispatches_on_type (sampleBuilder schemaNoType)).1 ⟨by decide, by decide⟩]

/-- C2: a method of an api or class schema whose `path` and `url` are both non-empty makes
`build` throw, and the text is "You can only use either path or url, not both!" when every
parameter entry of the methods before it is well formed; after a `readMethods` that did not
throw, no stored method has both a path and a url (given that none had before). -/
theorem path_url_mutually_exclusive :
    (∀ (b : ClassBuilder) (pre post : QJsonObject) (m : QString × QJsonValue),
      (rootType b = ("api" : QString) ∨ rootType b = ("class" : QString)) →
      (QJsonObject.value b.root "methods").toObject = pre ++ m :: post →
      methodPath m.2.toObject ≠ [] → methodUrl m.2.toObject ≠ [] →
        (build b).thrown ≠ none ∧
        ((∀ it ∈ pre, ∀ v,
            (v ∈ (QJsonObject.value it.2.toObject "pathParams").toArray ∨
              v ∈ (QJsonObject.value it.2.toObject "parameters").toArray) →
            ∃ p, MethodInfo.Parameter.create (v.toString []) = .ok p) →
          (build b).thrown = some pathUrlError)) ∧
    (∀ b : ClassBuilder, (readMethods b).thrown = none →
      (∀ e ∈ b.methods, e.2.path = [] ∨ e.2.url = []) →
      ∀ e ∈ (readMethods b).state.methods, e.2.path = [] ∨ e.2.url = []) ∧
    pathUrlError = ("You can only use either path or url, not both!" : QString) := by
  refine ⟨?_, ?_, rfl⟩
  · intro b pre post m ht hm hp hu
    rw [build_thrown_of_type b ht]
    have hm2 : (QJsonObject.value (readClasses b).root "methods").toObject = pre ++ m :: post := by
      rw [readClasses_root]; exact hm
    constructor
    · unfold readMethods
      simp only []
      rw [hm2]
      exact readMethodsLoop_fails pre post m _ (fun de => ⟨_, readMethod_pathUrl de _ hp hu⟩)
    · intro hpre
      unfold readMethods
      simp only []
      rw [hm2]
      exact readMethodsLoop_pathUrl pre post m _ hp hu hpre
  · intro b _ hb
    unfold readMethods
    exact readMethodsLoop_invariant (fun info => info.path = [] ∨ info.url = [])
      readMethod_ok_path_url _ _ hb

/-- C2, on an api schema whose only method sets both a path and a url. -/
theorem path_url_mutually_exclusive_witness :
    (build (sampleBuilder schemaPathAndUrl)).thrown = some pathUrlError :=
  (path_url_mutually_exclusive.1 (sampleBuilder schemaPathAndUrl) []  []
    ("both", .object [("path", .string "a"), ("url", .string "b")])
    (Or.inl (by decide)) (by rfl) (by decide) (by decide)).2
    (fun it hit => absurd hit (by simp))

/-- C3: for parts without a ';', the constructor of `Parameter` recovers the name, the type and
the default value from "name;type;default", and from "name;type" the name and the type with an
empty default value. -/
theorem parameter_parts_recovered (name type defaultValue : QString)
    (hn : ';' ∉ name) (ht : ';' ∉ type) (hd : ';' ∉ defaultValue) :
    MethodInfo.Parameter.create (name ++ [';'] ++ type ++ [';'] ++ defaultValue) =
      .ok { name := name, type := type, defaultValue := defaultValue } ∧
    MethodInfo.Parameter.create (name ++ [';'] ++ type) =
      .ok { name := name, type := type, defaultValue := [] } := by
  have h3 : split (name ++ [';'] ++ type ++ [';'] ++ defaultValue) ';' =
      [name, type, defaultValue] := by
    unfold split
    rw [List.append_assoc, List.append_assoc, List.append_assoc, List.singleton_append,
      splitAux_append_sep _ _ _ _ hn, List.singleton_append, splitAux_append_sep _ _ _ _ ht,
      splitAux_no_sep _ _ _ hd]
    simp
  have h2 : split (name ++ [';'] ++ type) ';' = [name, type] := by
    unfold split
    rw [List.append_assoc, List.singleton_append, splitAux_append_sep _ _ _ _ hn,
      splitAux_no_sep _ _ _ ht]
    simp
  constructor
  · unfold MethodInfo.Parameter.create
    rw [h3]
    simp
  · unfold MethodInfo.Parameter.create
    rw [h2]
    simp

/-- C3, on "id;int;0". -/
theorem parameter_parts_recovered_witness :
    MethodInfo.Parameter.create ("id;int;0" : QString) =
      .ok { name := "id", type := "int", defaultValue := "0" } :=
  (parameter_parts_recovered "id" "int" "0" (by decide) (by decide) (by decide)).1

/-- C4: the constructor of `Parameter` throws, with the text "Element in pathParams must be of
format ...", exactly for the strings that do not hold one or two ';', and builds a parameter for
all others; an api or class schema with a method that has such an entry in `pathParams` or in
`parameters` makes `build` throw. -/
theorem malformed_parameter_rejected :
    (∀ data : QString, MethodInfo.Parameter.create data = .error paramFormatError ↔
      ¬ (data.count ';' = 1 ∨ data.count ';' = 2)) ∧
    (∀ data : QString, (∃ p, MethodInfo.Parameter.create data = .ok p) ↔
      (data.count ';' = 1 ∨ data.count ';' = 2)) ∧
    (∀ (b : ClassBuilder) (pre post : QJsonObject) (m : QString × QJsonValue) (v : QJsonValue),
      (rootType b = ("api" : QString) ∨ rootType b = ("class" : QString)) →
      (QJsonObject.value b.root "methods").toObject = pre ++ m :: post →
      (v ∈ (QJsonObject.value m.2.toObject "pathParams").toArray ∨
        v ∈ (QJsonObject.value m.2.toObject "parameters").toArray) →
      ¬ ((v.toString []).count ';' = 1 ∨ (v.toString []).count ';' = 2) →
      (build b).thrown ≠ none) ∧
    paramFormatError =
      ("Element in pathParams must be of format \"name;type[;default]>\"" : QString) := by
  refine ⟨create_error_iff, ?_, ?_, rfl⟩
  · intro data
    constructor
    · rintro ⟨p, hp⟩
      by_contra hc
      rw [(create_error_iff data).2 hc] at hp
      cases hp
    · intro hc
      rcases create_ok_or_error data with h | h
      · exact h
      · exact absurd hc ((create_error_iff data).1 h)
  · intro b pre post m v ht hm hv hbad
    rw [build_thrown_of_type b ht]
    unfold readMethods
    simp only []
    rw [readClasses_root, hm]
    exact readMethodsLoop_fails pre post m _
      (fun de => readMethod_of_malformed de _ v hv ((create_error_iff _).2 hbad))

/-- C4, on a class schema whose only method has the path parameter "id". -/
theorem malformed_parameter_rejected_witness :
    (build (sampleBuilder schemaBadParam)).thrown ≠ none :=
  malformed_parameter_rejected.2.2.1 (sampleBuilder schemaBadParam) [] []
    ("get", .object [("pathParams", .array [.string "id"])]) (.string "id")
    (Or.inr (by decide)) (by rfl) (Or.inl (by simp [QJsonObject.value, QJsonValue.toObject,
      QJsonValue.toArray])) (by decide)

/-- C5: when `build` throws, the header buffer and the source buffer are what they were before
the call: the throw is the one of `build` itself, which leaves the builder untouched, or the one
of `readMethods`, run right after `readClasses` and before the first write. -/
theorem no_partial_output (b : ClassBuilder) (h : (build b).thrown ≠ none) :
    (build b).state.header = b.header ∧ (build b).state.source = b.source ∧
    (build b = ⟨some typeError, b⟩ ∨ build b = readMethods (readClasses b)) := by
  by_cases ha : rootType b = ("api" : QString)
  · rw [build_api b ha] at h ⊢
    rw [generateApi_of_thrown b h]
    simp
  · by_cases hc : rootType b = ("class" : QString)
    · rw [build_class b hc] at h ⊢
      rw [generateClass_of_thrown b h]
      simp
    · rw [build_other b ha hc]
      simp

/-- C5, on an api schema whose only method sets both a path and a url, with text already in
both buffers. -/
theorem no_partial_output_witness :
    (build (((sampleBuilder schemaPathAndUrl).hdr "// h").src "// s")).state.header
        = ("// h" : QString) ∧
      (build (((sampleBuilder schemaPathAndUrl).hdr "// h").src "// s")).state.source
        = ("// s" : QString) :=
  have h := no_partial_output (((sampleBuilder schemaPathAndUrl).hdr "// h").src "// s")
    (by decide)
  ⟨h.1, h.2.1⟩

/-- C6: the declaration and the definition of a method have the same return type
`QtRestClient::GenericRestReply<returns, except> *`, the same name and the same parameter list,
the one of `specParameters`: each parameter as `type name`, with ` = default` after it in the
declaration only, and only when the default is not empty. These are the texts that
`writeMethodDeclarations` and `writeMethodDefinitions` append for every stored method, and that
a run of `build` that does not throw leaves in the header and in the source. -/
theorem method_declaration_matches_definition :
    (∀ (key : QString) (info : MethodInfo),
      methodDeclaration (key, info) =
        ("\tQtRestClient::GenericRestReply<" : QString) ++ info.returns ++ ", " ++ info.except
          ++ "> *" ++ key ++ "("
          ++ join ((specParameters info).map (fun p => p.1 ++ p.2)) ", " ++ ");\n") ∧
    (∀ (className defaultExcept key : QString) (info : MethodInfo),
      methodDefinition className defaultExcept (key, info) =
        ("\nQtRestClient::GenericRestReply<" : QString) ++ info.returns ++ ", " ++ info.except
          ++ "> *" ++ className ++ "::" ++ key ++ "("
          ++ join ((specParameters info).map (fun p => p.1)) ", " ++ ")\n" ++ "\x7b\n"
          ++ methodDefinitionBody className defaultExcept info) ∧
    (∀ s : ClassBuilder,
      writeMethodDeclarations s =
        s.hdr (perEntry s.methods methodDeclaration ++ blankLine s.methods) ∧
      writeMethodDefinitions s =
        s.src (perEntry s.methods (methodDefinition s.className s.defaultExcept))) ∧
    (∀ b : ClassBuilder, (build b).thrown = none →
      ∃ h1 h2 s1 s2 : QString,
        (build b).state.header =
          b.header ++ h1 ++ perEntry (schemaRead b).methods methodDeclaration ++ h2 ∧
        (build b).state.source =
          b.source ++ s1 ++ perEntry (schemaRead b).methods
            (methodDefinition b.className (schemaRead b).defaultExcept) ++ s2) := by
  refine ⟨?_, ?_, ?_, ?_⟩
  · intro key info
    have h := methodParameters_eq info true
    simp only [if_true] at h
    unfold methodDeclaration
    rw [h]
  · intro className defaultExcept key info
    have h := methodParameters_eq info false
    simp only [Bool.false_eq_true, if_false] at h
    unfold methodDefinition methodDefinitionHead
    rw [h]
  · exact fun s => ⟨writeMethodDeclarations_eq s, writeMethodDefinitions_eq s⟩
  · intro b h
    rw [build_header b h, build_source b h]
    refine ⟨includeList (schemaRead b)
        ++ classOpening (schemaRead b).exportedClassName (parentOf (schemaRead b))
        ++ factoryDeclaration (schemaRead b).className (schemaRead b).classes
        ++ apiOnly (decide (rootType b = ("api" : QString)))
          (staticFactoryDeclaration (schemaRead b).className
            ++ parentConstructorDeclaration (schemaRead b).className)
        ++ constructorDeclaration (schemaRead b).className
        ++ (perEntry (schemaRead b).classes classAccessorDeclaration
          ++ blankLine (schemaRead b).classes),
      blankLine (schemaRead b).methods
        ++ setErrorTranslatorDeclaration (schemaRead b).defaultExcept
        ++ apiErrorSignal
        ++ (privateMembersHead (schemaRead b).defaultExcept
          ++ perEntry (schemaRead b).classes memberDeclaration)
        ++ apiOnly (decide (rootType b = ("api" : QString))) generateClientDeclaration
        ++ classClosing,
      sourcePrologue (schemaRead b).fileName
        ++ pathConstant (schemaRead b).className (schemaRead b).root
        ++ factoryDefinition (schemaRead b).className (schemaRead b).classes
        ++ apiOnly (decide (rootType b = ("api" : QString)))
          (staticFactoryDefinition (schemaRead b).className
            ++ parentConstructorDefinition (schemaRead b).className)
        ++ constructorDefinition (schemaRead b).className (parentOf (schemaRead b))
          (schemaRead b).classes
        ++ perEntry (schemaRead b).classes (classAccessorDefinition (schemaRead b).className),
      setErrorTranslatorDefinition (schemaRead b).className (schemaRead b).defaultExcept
        ++ apiOnly (decide (rootType b = ("api" : QString)))
          (clientGeneration (schemaRead b).className (schemaRead b).root), ?_, ?_⟩
    · unfold headerText
      simp only [List.append_assoc]
    · unfold sourceText
      simp only [List.append_assoc, schemaRead_className]

/-- C6, on the api schema `schemaPosts`: its one method is declared with the body, the path
parameter and the query parameter with its default, in this order. -/
theorem method_declaration_matches_definition_witness :
    methodDeclaration ("post", { MethodInfo.create with
        path := "posts/", body := "Post",
        pathParams := [{ type := "int", name := "id", defaultValue := [] }],
        parameters := [{ type := "int", name := "limit", defaultValue := "10" }] }) =
      ("\tQtRestClient::GenericRestReply<QObject*, QObject*> *post(Post __body, int id, int limit = 10);\n"
        : QString) ∧
    ∃ h1 h2 s1 s2 : QString,
      (build (sampleBuilder schemaPosts)).state.header =
        (sampleBuilder schemaPosts).header ++ h1
          ++ perEntry (schemaRead (sampleBuilder schemaPosts)).methods methodDeclaration ++ h2 ∧
      (build (sampleBuilder schemaPosts)).state.source =
        (sampleBuilder schemaPosts).source ++ s1
          ++ perEntry (schemaRead (sampleBuilder schemaPosts)).methods
            (methodDefinition (sampleBuilder schemaPosts).className
              (schemaRead (sampleBuilder schemaPosts)).defaultExcept) ++ s2 :=
  ⟨by rw [method_declaration_matches_definition.1]; decide,
    method_declaration_matches_definition.2.2.2 (sampleBuilder schemaPosts) (by decide)⟩

/-- C7: in both modes, a run of `build` that does not throw, on a fresh builder and a schema
whose `classes` has no key twice, leaves a header and a source in which the sub-classes occur
in six blocks and nowhere else: in the header one `Factory` accessor declaration, one class
accessor declaration and one private member per entry `name -> Type` of `classes`, in the
source one `Factory` accessor definition, one constructor initialiser and one accessor
definition per entry; with no sub-class all six blocks are empty. -/
theorem subclasses_fully_generated (b : ClassBuilder) (h : (build b).thrown = none)
    (hfresh : b.classes = [])
    (hkeys : ((QJsonObject.value b.root "classes").toObject.map (fun it => it.1)).Nodup) :
    (build b).state.header = b.header
      ++ (includeList (schemaRead b)
        ++ classOpening b.exportedClassName (parentOf (schemaRead b))
        ++ factoryDeclarationHead)
      ++ (perEntry (schemaClasses b.root) factoryAccessorDeclaration
        ++ blankLine (schemaClasses b.root))
      ++ (factoryDeclarationTail b.className
        ++ apiOnly (decide (rootType b = ("api" : QString)))
          (staticFactoryDeclaration b.className ++ parentConstructorDeclaration b.className)
        ++ constructorDeclaration b.className)
      ++ (perEntry (schemaClasses b.root) classAccessorDeclaration
        ++ blankLine (schemaClasses b.root))
      ++ (perEntry (schemaRead b).methods methodDeclaration ++ blankLine (schemaRead b).methods
        ++ setErrorTranslatorDeclaration (schemaRead b).defaultExcept
        ++ apiErrorSignal
        ++ privateMembersHead (schemaRead b).defaultExcept)
      ++ perEntry (schemaClasses b.root) memberDeclaration
      ++ (apiOnly (decide (rootType b = ("api" : QString))) generateClientDeclaration
        ++ classClosing) ∧
    (build b).state.source = b.source
      ++ (sourcePrologue b.fileName ++ pathConstant b.className b.root
        ++ factoryConstructorDefinition b.className)
      ++ perEntry (schemaClasses b.root) (factoryAccessorDefinition b.className)
      ++ (factoryInstanceDefinition b.className
        ++ apiOnly (decide (rootType b = ("api" : QString)))
          (staticFactoryDefinition b.className ++ parentConstructorDefinition b.className)
        ++ constructorDefinitionHead b.className (parentOf (schemaRead b)))
      ++ perEntry (schemaClasses b.root) memberInitialiser
      ++ constructorDefinitionTail b.className
      ++ perEntry (schemaClasses b.root) (classAccessorDefinition b.className)
      ++ (perEntry (schemaRead b).methods
          (methodDefinition b.className (schemaRead b).defaultExcept)
        ++ setErrorTranslatorDefinition b.className (schemaRead b).defaultExcept
        ++ apiOnly (decide (rootType b = ("api" : QString)))
          (clientGeneration b.className b.root)) ∧
    (∀ it : QString × QString,
      factoryAccessorDeclaration it
        = ("\t\t" : QString) ++ it.2 ++ "::Factory " ++ it.1 ++ "() const;\n" ∧
      classAccessorDeclaration it = ("\t" : QString) ++ it.2 ++ " *" ++ it.1 ++ "() const;\n" ∧
      memberDeclaration it = ("\t" : QString) ++ it.2 ++ " *_" ++ it.1 ++ ";\n" ∧
      factoryAccessorDefinition b.className it
        = ("\n" : QString) ++ it.2 ++ "::Factory " ++ b.className ++ "::Factory::" ++ it.1
          ++ "() const\n" ++ "\x7b\n" ++ "\treturn " ++ it.2 ++ "::Factory(client, subPath);\n"
          ++ "\x7d\n" ∧
      memberInitialiser it
        = ("\t,_" : QString) ++ it.1 ++ "(new " ++ it.2 ++ "(_restClass->subClass(" ++ it.2
          ++ "::Path), this))\n" ∧
      classAccessorDefinition b.className it
        = ("\n" : QString) ++ it.2 ++ " *" ++ b.className ++ "::" ++ it.1 ++ "() const\n"
          ++ "\x7b\n" ++ "\treturn _" ++ it.1 ++ ";\n" ++ "\x7d\n") ∧
    (schemaClasses b.root = [] →
      perEntry (schemaClasses b.root) factoryAccessorDeclaration
          ++ blankLine (schemaClasses b.root) = [] ∧
        perEntry (schemaClasses b.root) classAccessorDeclaration
          ++ blankLine (schemaClasses b.root) = [] ∧
        perEntry (schemaClasses b.root) memberDeclaration = [] ∧
        perEntry (schemaClasses b.root) (factoryAccessorDefinition b.className) = [] ∧
        perEntry (schemaClasses b.root) memberInitialiser = [] ∧
        perEntry (schemaClasses b.root) (classAccessorDefinition b.className) = []) := by
  refine ⟨?_, ?_, fun it => ⟨rfl, rfl, rfl, rfl, rfl, rfl⟩, ?_⟩
  · rw [build_header b h]
    unfold headerText factoryDeclaration
    simp only [schemaRead_classes_fresh b hfresh hkeys, schemaRead_className,
      schemaRead_exportedClassName, List.append_assoc]
  · rw [build_source b h]
    unfold sourceText factoryDefinition constructorDefinition
    simp only [schemaRead_classes_fresh b hfresh hkeys, schemaRead_className,
      schemaRead_fileName, schemaRead_root, List.append_assoc]
  · intro h0
    rw [h0]
    simp [perEntry, blankLine]

/-- C7, on the api schema `schemaPosts` with its one sub-class `posts -> PostClass`. -/
theorem subclasses_fully_generated_witness :
    perEntry (schemaClasses (sampleBuilder schemaPosts).root) factoryAccessorDeclaration
        = ("\t\tPostClass::Factory posts() const;\n" : QString) ∧
      ∃ before after : QString,
        (build (sampleBuilder schemaPosts)).state.header =
          before ++ ("\tPostClass *_posts;\n" : QString) ++ after :=
  have h := subclasses_fully_generated (sampleBuilder schemaPosts) (by decide) (by decide)
    (by decide)
  ⟨by decide, _, _, h.1⟩

/-- C9: a run of `build` that does not throw writes the parts of the header and of the source
in the stated order; the parts marked `apiOnly` are written by `generateApi` only, and the
client-construction code is the last part of the source of an api. -/
theorem output_in_stated_order (b : ClassBuilder) (h : (build b).thrown = none) :
    (build b).state.header = b.header
      ++ includeList (schemaRead b)
      ++ classOpening b.exportedClassName (parentOf (schemaRead b))
      ++ factoryDeclaration b.className (schemaRead b).classes
      ++ apiOnly (decide (rootType b = ("api" : QString)))
        (staticFactoryDeclaration b.className ++ parentConstructorDeclaration b.className)
      ++ constructorDeclaration b.className
      ++ (perEntry (schemaRead b).classes classAccessorDeclaration
        ++ blankLine (schemaRead b).classes)
      ++ (perEntry (schemaRead b).methods methodDeclaration ++ blankLine (schemaRead b).methods)
      ++ setErrorTranslatorDeclaration (schemaRead b).defaultExcept
      ++ apiErrorSignal
      ++ (privateMembersHead (schemaRead b).defaultExcept
        ++ perEntry (schemaRead b).classes memberDeclaration)
      ++ apiOnly (decide (rootType b = ("api" : QString))) generateClientDeclaration
      ++ classClosing ∧
    (build b).state.source = b.source
      ++ sourcePrologue b.fileName
      ++ pathConstant b.className b.root
      ++ factoryDefinition b.className (schemaRead b).classes
      ++ apiOnly (decide (rootType b = ("api" : QString)))
        (staticFactoryDefinition b.className ++ parentConstructorDefinition b.className)
      ++ constructorDefinition b.className (parentOf (schemaRead b)) (schemaRead b).classes
      ++ perEntry (schemaRead b).classes (classAccessorDefinition b.className)
      ++ perEntry (schemaRead b).methods
        (methodDefinition b.className (schemaRead b).defaultExcept)
      ++ setErrorTranslatorDefinition b.className (schemaRead b).defaultExcept
      ++ apiOnly (decide (rootType b = ("api" : QString)))
        (clientGeneration b.className b.root) ∧
    (rootType b ≠ ("api" : QString) → ∀ text : QString,
      apiOnly (decide (rootType b = ("api" : QString))) text = []) ∧
    (rootType b = ("api" : QString) → ∀ text : QString,
      apiOnly (decide (rootType b = ("api" : QString))) text = text) := by
  refine ⟨?_, ?_, ?_, ?_⟩
  · rw [build_header b h]
    unfold headerText
    simp only [schemaRead_className, schemaRead_exportedClassName, List.append_assoc]
  · rw [build_source b h]
    unfold sourceText
    simp only [schemaRead_className, schemaRead_fileName, schemaRead_root, List.append_assoc]
  · intro hne text
    rw [decide_eq_false hne]
    rfl
  · intro ha text
    rw [decide_eq_true ha]
    rfl

/-- C9, on the api schema `schemaPosts`: the source ends with the client-construction code. -/
theorem output_in_stated_order_witness :
    ∃ before : QString, (build (sampleBuilder schemaPosts)).state.source =
      before ++ clientGeneration ("Api" : QString) schemaPosts :=
  have h := output_in_stated_order (sampleBuilder schemaPosts) (by decide)
  ⟨_, by rw [h.2.1, h.2.2.2 (by decide)]; rfl⟩

/-- C10: the source of an api that `build` generates without throwing is the text of the other
parts followed by one definition of `generateClient()`: the global form, which looks the client
up with `apiClient(expr(globalName))` and registers it with `addGlobalApi` under the same
expression, when `globalName` is not empty, and the local static form when `globalName` is
empty, absent or not a string. The start-up function follows exactly when `globalName` is not
empty and `autoCreate` is not `false`; nothing follows otherwise. -/
theorem generateClient_form (b : ClassBuilder) (ha : rootType b = ("api" : QString))
    (h : (build b).thrown = none) :
    (∃ tail : QString,
      (build b).state.source = b.source
        ++ (sourcePrologue b.fileName
          ++ pathConstant b.className b.root
          ++ factoryDefinition b.className (schemaRead b).classes
          ++ (staticFactoryDefinition b.className ++ parentConstructorDefinition b.className)
          ++ constructorDefinition b.className (parentOf (schemaRead b)) (schemaRead b).classes
          ++ perEntry (schemaRead b).classes (classAccessorDefinition b.className)
          ++ perEntry (schemaRead b).methods
            (methodDefinition b.className (schemaRead b).defaultExcept)
          ++ setErrorTranslatorDefinition b.className (schemaRead b).defaultExcept)
        ++ (if globalNameOf b.root ≠ [] then
            globalApiGeneration b.className b.root (globalNameOf b.root)
          else localApiGeneration b.className b.root)
        ++ tail ∧
      (startupAsked b.root → tail = startupFunction b.className) ∧
      (¬ startupAsked b.root → tail = [])) ∧
    (∀ globalName : QString, globalApiGeneration b.className b.root globalName =
      ("\nRestClient *" : QString) ++ b.className ++ "::generateClient()\n"
        ++ "\x7b\n"
        ++ "\tauto client = apiClient(" ++ expr globalName ++ ");\n"
        ++ "\tif(!client) \x7b\n"
        ++ apiCreation b.root
        ++ "\t\taddGlobalApi(" ++ expr globalName ++ ", client);\n"
        ++ "\t\x7d\n"
        ++ "\treturn client;\n"
        ++ "\x7d\n") ∧
    localApiGeneration b.className b.root =
      ("\nRestClient *" : QString) ++ b.className ++ "::generateClient()\n"
        ++ "\x7b\n"
        ++ "\tstatic QPointer<RestClient> client = nullptr;\n"
        ++ "\tif(!client) \x7b\n"
        ++ apiCreation b.root
        ++ "\t\x7d\n"
        ++ "\treturn client;\n"
        ++ "\x7d\n" ∧
    ((∀ s, QJsonObject.value b.root "globalName" ≠ .string s) → globalNameOf b.root = []) ∧
    ((∀ v, QJsonObject.value b.root "autoCreate" ≠ .bool v) →
      (startupAsked b.root ↔ globalNameOf b.root ≠ [])) := by
  refine ⟨?_, fun _ => rfl, rfl, ?_, ?_⟩
  · refine ⟨if globalNameOf b.root ≠ [] then
        (if autoCreateOf b.root then startupFunction b.className else []) else [], ?_, ?_, ?_⟩
    · rw [build_source b h, decide_eq_true ha]
      unfold sourceText clientGeneration apiOnly
      by_cases hg : globalNameOf b.root = []
      · simp only [hg, ne_eq, not_true_eq_false, if_false, if_true, schemaRead_className,
          schemaRead_fileName, schemaRead_root, List.append_assoc, List.append_nil]
      · simp only [hg, ne_eq, not_false_eq_true, if_true, schemaRead_className,
          schemaRead_fileName, schemaRead_root, List.append_assoc]
    · intro hs
      rw [if_pos hs.1, if_pos ((autoCreateOf_eq_true_iff b.root).2 hs.2)]
    · intro hs
      by_cases hg : globalNameOf b.root = []
      · rw [if_neg (by simpa using hg)]
      · rw [if_pos hg]
        have hauto : ¬ autoCreateOf b.root = true := fun hc =>
          hs ⟨hg, (autoCreateOf_eq_true_iff b.root).1 hc⟩
        rw [if_neg hauto]
  · intro hno
    unfold globalNameOf
    cases hv : QJsonObject.value b.root "globalName" <;>
      first | rfl | exact absurd hv (hno _)
  · intro hno
    unfold startupAsked
    constructor
    · exact fun hs => hs.1
    · exact fun hg => ⟨hg, hno false⟩

/-- C10, on the api schema `schemaPosts`, which has a global name and no `autoCreate`: the
source ends with the global form of `generateClient()` and the start-up function. -/
theorem generateClient_form_witness :
    ∃ before : QString, (build (sampleBuilder schemaPosts)).state.source =
      before ++ globalApiGeneration ("Api" : QString) schemaPosts ("posts" : QString)
        ++ startupFunction ("Api" : QString) := by
  obtain ⟨⟨tail, h1, h2, _⟩, _⟩ :=
    generateClient_form (sampleBuilder schemaPosts) (by decide) (by decide)
  have hs : startupAsked (sampleBuilder schemaPosts).root := by
    constructor
    · decide
    · intro hc
      have : QJsonObject.value (sampleBuilder schemaPosts).root "autoCreate"
          = QJsonValue.undefined := by rfl
      rw [this] at hc
      cases hc
  rw [h2 hs] at h1
  rw [h1]
  exact ⟨_, rfl⟩

set_option maxRecDepth 100000 in
/-- C11, refuted as stated: the class schema `schemaOwnExcept` is generated without a throw, its
one method `get` has the error type `MyError` while the class-level type is `QObject*`, and the
text that `writeMethodDefinitions` emits for it holds no `__reply->onAllErrors(` at all. -/
theorem method_without_error_forwarding :
    (build (sampleBuilder schemaOwnExcept)).thrown = none ∧
    (schemaRead (sampleBuilder schemaOwnExcept)).methods
      = [(("get" : QString), { MethodInfo.create with except := ("MyError" : QString) })] ∧
    (schemaRead (sampleBuilder schemaOwnExcept)).defaultExcept = ("QObject*" : QString) ∧
    ¬ (("__reply->onAllErrors(" : QString)
      <:+: (writeMethodDefinitions (schemaRead (sampleBuilder schemaOwnExcept))).source) := by
  have hm : (schemaRead (sampleBuilder schemaOwnExcept)).methods
      = [(("get" : QString), { MethodInfo.create with except := ("MyError" : QString) })] := by
    decide
  have hd : (schemaRead (sampleBuilder schemaOwnExcept)).defaultExcept
      = ("QObject*" : QString) := by decide
  refine ⟨by decide, hm, hd, ?_⟩
  rw [writeMethodDefinitions_eq, src_source, hm, hd]
  decide

/-- C11, as amended: a method whose error type is the class-level one gets the block that
emits `apiError` and calls the error translator, between the `call` statement and the
`return`; this holds for every such method of a schema that `build` generates without a throw,
whose definition is part of the source. -/
theorem default_except_methods_forward_errors :
    (∀ (className defaultExcept : QString) (it : QString × MethodInfo),
      it.2.except = defaultExcept →
      methodDefinition className defaultExcept it =
        (methodDefinitionHead className it ++ methodPathText it.2
          ++ "\tQVariantHash __params;\n" ++ perEntry it.2.parameters paramInsert
          ++ "\tHeaderHash __headers;\n" ++ perEntry it.2.headers headerInsert
          ++ methodCall it.2)
        ++ (("\tQPointer<" : QString) ++ className ++ "> __this(this);\n"
          ++ "\t__reply->onAllErrors([__this](QString __e, int __c, RestReply::ErrorType __t)\x7b\n"
          ++ "\t\tif(__this)\n"
          ++ "\t\t\temit __this->apiError(__e, __c, __t);\n"
          ++ "\t\x7d, [__this](" ++ it.2.except ++ " __o, int __c)\x7b\n"
          ++ "\t\tif(__this && __this->_errorTranslator)\n"
          ++ "\t\t\treturn __this->_errorTranslator(__o, __c);\n"
          ++ "\t\telse\n"
          ++ "\t\t\treturn QString();\n"
          ++ "\t\x7d);\n")
        ++ (("\treturn __reply;\n" : QString) ++ "\x7d\n")) ∧
    (∀ (b : ClassBuilder) (it : QString × MethodInfo), (build b).thrown = none →
      it ∈ (schemaRead b).methods → it.2.except = (schemaRead b).defaultExcept →
      methodDefinition b.className (schemaRead b).defaultExcept it <:+: (build b).state.source ∧
      errorForwarding b.className it.2 <:+: (build b).state.source) := by
  constructor
  · intro className defaultExcept it he
    unfold methodDefinition methodDefinitionBody
    rw [if_pos he]
    unfold errorForwarding
    simp only [List.append_assoc]
  · intro b it h hit he
    have hdef := methodDefinition_infix b h it hit
    refine ⟨hdef, List.IsInfix.trans ?_ hdef⟩
    unfold methodDefinition methodDefinitionBody
    rw [if_pos he]
    refine ⟨methodDefinitionHead b.className it ++ methodPathText it.2
        ++ "\tQVariantHash __params;\n" ++ perEntry it.2.parameters paramInsert
        ++ "\tHeaderHash __headers;\n" ++ perEntry it.2.headers headerInsert
        ++ methodCall it.2, ("\treturn __reply;\n" : QString) ++ "\x7d\n", ?_⟩
    simp only [List.append_assoc]

/-- C11 as amended, on the api schema `schemaPosts`, whose method `post` has the class-level
error type. -/
theorem default_except_methods_forward_errors_witness :
    errorForwarding ("Api" : QString)
        { MethodInfo.create with
          path := "posts/", body := "Post",
          pathParams := [{ type := "int", name := "id", defaultValue := [] }],
          parameters := [{ type := "int", name := "limit", defaultValue := "10" }] }
      <:+: (build (sampleBuilder schemaPosts)).state.source :=
  (default_except_methods_forward_errors.2 (sampleBuilder schemaPosts)
    (("post" : QString), { MethodInfo.create with
          path := "posts/", body := "Post",
          pathParams := [{ type := "int", name := "id", defaultValue := [] }],
          parameters := [{ type := "int", name := "limit", defaultValue := "10" }] })
    (by decide) (by decide) (by decide)).2

/-- C12: `writeMethodDefinition` writes the error-forwarding block, between the `call`
statement and the `return`, when the error type of the method is equal to the class-level
`defaultExcept`, and writes nothing there otherwise; the block is never empty and its
translator lambda takes the error type of the method. In a run of `build` that does not throw,
the `defaultExcept` that the method definitions are compared with is also the argument type of
`setErrorTranslator` in the header and in the source and of the `_errorTranslator` member. -/
theorem error_forwarding_iff_default_except :
    (∀ (b : ClassBuilder) (key : QString) (info : MethodInfo),
      info.except = b.defaultExcept →
      writeMethodDefinition b key info = b.src
        ((methodDefinitionHead b.className (key, info) ++ methodPathText info
          ++ "\tQVariantHash __params;\n" ++ perEntry info.parameters paramInsert
          ++ "\tHeaderHash __headers;\n" ++ perEntry info.headers headerInsert
          ++ methodCall info)
        ++ errorForwarding b.className info
        ++ (("\treturn __reply;\n" : QString) ++ "\x7d\n"))) ∧
    (∀ (b : ClassBuilder) (key : QString) (info : MethodInfo),
      info.except ≠ b.defaultExcept →
      writeMethodDefinition b key info = b.src
        ((methodDefinitionHead b.className (key, info) ++ methodPathText info
          ++ "\tQVariantHash __params;\n" ++ perEntry info.parameters paramInsert
          ++ "\tHeaderHash __headers;\n" ++ perEntry info.headers headerInsert
          ++ methodCall info)
        ++ (("\treturn __reply;\n" : QString) ++ "\x7d\n"))) ∧
    (∀ (className : QString) (info : MethodInfo),
      errorForwarding className info ≠ [] ∧
      errorForwarding className info =
        ("\tQPointer<" : QString) ++ className ++ "> __this(this);\n"
          ++ "\t__reply->onAllErrors([__this](QString __e, int __c, RestReply::ErrorType __t)\x7b\n"
          ++ "\t\tif(__this)\n"
          ++ "\t\t\temit __this->apiError(__e, __c, __t);\n"
          ++ "\t\x7d, [__this](" ++ info.except ++ " __o, int __c)\x7b\n"
          ++ "\t\tif(__this && __this->_errorTranslator)\n"
          ++ "\t\t\treturn __this->_errorTranslator(__o, __c);\n"
          ++ "\t\telse\n"
          ++ "\t\t\treturn QString();\n"
          ++ "\t\x7d);\n") ∧
    (∀ b : ClassBuilder, (build b).thrown = none →
      ∃ h1 h2 s1 s2 : QString,
        (build b).state.header = b.header ++ h1
          ++ (("\tvoid setErrorTranslator(const std::function<QString(" : QString)
            ++ (schemaRead b).defaultExcept ++ ", int)> &fn);\n\n")
          ++ apiErrorSignal
          ++ (("private:\n" : QString)
            ++ "\tQtRestClient::RestClass *_restClass;\n"
            ++ "\tstd::function<QString(" ++ (schemaRead b).defaultExcept
            ++ ", int)> _errorTranslator;\n")
          ++ h2 ∧
        (build b).state.source = b.source ++ s1
          ++ perEntry (schemaRead b).methods
            (methodDefinition b.className (schemaRead b).defaultExcept)
          ++ (("\nvoid " : QString) ++ b.className
            ++ "::setErrorTranslator(const std::function<QString("
            ++ (schemaRead b).defaultExcept ++ ", int)> &fn)\n"
            ++ "\x7b\n"
            ++ "\t_errorTranslator = fn;\n"
            ++ "\x7d\n")
          ++ s2) := by
  refine ⟨?_, ?_, ?_, ?_⟩
  · intro b key info he
    rw [writeMethodDefinition_eq]
    unfold methodDefinition methodDefinitionBody
    rw [if_pos he]
    simp only [List.append_assoc]
  · intro b key info he
    rw [writeMethodDefinition_eq]
    unfold methodDefinition methodDefinitionBody
    rw [if_neg he]
    simp only [List.append_assoc, List.nil_append]
  · intro className info
    refine ⟨?_, rfl⟩
    unfold errorForwarding
    exact List.append_ne_nil_of_right_ne_nil _ (by decide)
  · intro b h
    rw [build_header b h, build_source b h]
    refine ⟨includeList (schemaRead b)
        ++ classOpening (schemaRead b).exportedClassName (parentOf (schemaRead b))
        ++ factoryDeclaration (schemaRead b).className (schemaRead b).classes
        ++ apiOnly (decide (rootType b = ("api" : QString)))
          (staticFactoryDeclaration (schemaRead b).className
            ++ parentConstructorDeclaration (schemaRead b).className)
        ++ constructorDeclaration (schemaRead b).className
        ++ (perEntry (schemaRead b).classes classAccessorDeclaration
          ++ blankLine (schemaRead b).classes)
        ++ (perEntry (schemaRead b).methods methodDeclaration
          ++ blankLine (schemaRead b).methods),
      perEntry (schemaRead b).classes memberDeclaration
        ++ apiOnly (decide (rootType b = ("api" : QString))) generateClientDeclaration
        ++ classClosing,
      sourcePrologue (schemaRead b).fileName
        ++ pathConstant (schemaRead b).className (schemaRead b).root
        ++ factoryDefinition (schemaRead b).className (schemaRead b).classes
        ++ apiOnly (decide (rootType b = ("api" : QString)))
          (staticFactoryDefinition (schemaRead b).className
            ++ parentConstructorDefinition (schemaRead b).className)
        ++ constructorDefinition (schemaRead b).className (parentOf (schemaRead b))
          (schemaRead b).classes
        ++ perEntry (schemaRead b).classes (classAccessorDefinition (schemaRead b).className),
      apiOnly (decide (rootType b = ("api" : QString)))
        (clientGeneration (schemaRead b).className (schemaRead b).root), ?_, ?_⟩
    · unfold headerText setErrorTranslatorDeclaration privateMembersHead
      simp only [List.append_assoc]
    · unfold sourceText setErrorTranslatorDefinition
      simp only [List.append_assoc, schemaRead_className]

/-- C12, on the class schema `schemaOwnExcept`: the definition of its method `get`, whose error
type is `MyError`, goes from the `call` statement straight to the `return`. -/
theorem error_forwarding_iff_default_except_witness :
    ∃ before : QString,
      (writeMethodDefinition (schemaRead (sampleBuilder schemaOwnExcept)) ("get" : QString)
        { MethodInfo.create with except := ("MyError" : QString) }).source
      = before
        ++ ("\n\tauto __reply = _restClass->call<QObject*, MyError>(\"GET\", __params, __headers);\n"
          : QString)
        ++ (("\treturn __reply;\n" : QString) ++ "\x7d\n") := by
  have h := error_forwarding_iff_default_except.2.1
    (schemaRead (sampleBuilder schemaOwnExcept)) ("get" : QString)
    { MethodInfo.create with except := ("MyError" : QString) } (by decide)
  rw [h, src_source]
  refine ⟨(schemaRead (sampleBuilder schemaOwnExcept)).source
      ++ (methodDefinitionHead (schemaRead (sampleBuilder schemaOwnExcept)).className
          (("get" : QString), { MethodInfo.create with except := ("MyError" : QString) })
        ++ methodPathText { MethodInfo.create with except := ("MyError" : QString) }
        ++ "\tQVariantHash __params;\n"
        ++ perEntry ({ MethodInfo.create with except := ("MyError" : QString) } : MethodInfo).parameters
          paramInsert
        ++ "\tHeaderHash __headers;\n"
        ++ perEntry ({ MethodInfo.create with except := ("MyError" : QString) } : MethodInfo).headers
          headerInsert), ?_⟩
  have hc : methodCall { MethodInfo.create with except := ("MyError" : QString) }
      = ("\n\tauto __reply = _restClass->call<QObject*, MyError>(\"GET\", __params, __headers);\n"
          : QString) := by decide
  rw [← hc]
  simp only [List.append_assoc]

set_option maxRecDepth 100000 in
/-- C14, refuted as stated: the class schema `schemaPlainMethod` is generated without a throw,
its one method `list` has no path, no url and no path parameter, and the text that
`writeMethodDefinitions` emits for it never mentions `__path`, so `__path` is not initialised. -/
theorem method_without_path_initialisation :
    (build (sampleBuilder schemaPlainMethod)).thrown = none ∧
    (schemaRead (sampleBuilder schemaPlainMethod)).methods
      = [(("list" : QString), MethodInfo.create)] ∧
    ¬ (("__path" : QString)
      <:+: (writeMethodDefinitions (schemaRead (sampleBuilder schemaPlainMethod))).source) := by
  have hm : (schemaRead (sampleBuilder schemaPlainMethod)).methods
      = [(("list" : QString), MethodInfo.create)] := by decide
  have hd : (schemaRead (sampleBuilder schemaPlainMethod)).defaultExcept
      = ("QObject*" : QString) := by decide
  refine ⟨by decide, hm, ?_⟩
  rw [writeMethodDefinitions_eq, src_source, hm, hd]
  decide

/-- C14, as amended: for a method whose path, url or path parameters are not empty,
`writeMethodPath` initialises `__path` (to `expr(path)`, else to `expr(url)`, else to the empty
string) and then writes one `__path.append(QVariant::fromValue(<name>).toString());` per path
parameter, in the order of `pathParams`, and a blank line; for a method that has none of the
three it writes nothing. The query parameters have no part in this text, which comes right
after the first lines of the definition. -/
theorem path_parameters_in_schema_order :
    (∀ (b : ClassBuilder) (info : MethodInfo),
      (info.path ≠ [] ∨ info.url ≠ [] ∨ info.pathParams ≠ []) →
      writeMethodPath b info =
        (b.src ((if info.path ≠ [] then
              ("\tQString __path = " : QString) ++ expr info.path ++ ";\n"
            else if info.url ≠ [] then
              ("\tQString __path = " : QString) ++ expr info.url ++ ";\n"
            else ("\tQString __path;\n" : QString))
          ++ (info.pathParams.map (fun p =>
              ("\t__path.append(QVariant::fromValue(" : QString) ++ p.name
                ++ ").toString());\n")).flatten
          ++ "\n"), true) ∧
      (info.pathParams.map (fun p =>
          ("\t__path.append(QVariant::fromValue(" : QString) ++ p.name
            ++ ").toString());\n")).length = info.pathParams.length) ∧
    (∀ (b : ClassBuilder) (info : MethodInfo),
      info.path = [] → info.url = [] → info.pathParams = [] →
      writeMethodPath b info = (b, false)) ∧
    (∀ (b : ClassBuilder) (info : MethodInfo) (parameters : List MethodInfo.Parameter),
      writeMethodPath b { info with parameters := parameters } = writeMethodPath b info) ∧
    (∀ (b : ClassBuilder) (key : QString) (info : MethodInfo),
      ∃ after : QString, writeMethodDefinition b key info =
        ClassBuilder.src
          (writeMethodPath (b.src (methodDefinitionHead b.className (key, info))) info).1
          after) := by
  refine ⟨?_, ?_, ?_, ?_⟩
  · intro b info hdecl
    refine ⟨?_, List.length_map _ _⟩
    rw [writeMethodPath_eq, (hasPath_eq_true_iff info).2 hdecl]
    unfold methodPathText
    rw [(hasPath_eq_true_iff info).2 hdecl, if_pos rfl]
    rfl
  · intro b info hp hu hq
    rw [writeMethodPath_eq]
    have hf : hasPath info = false := by
      unfold hasPath
      rw [hp, hu, hq]
      decide
    unfold methodPathText
    rw [hf]
    simp only [Bool.false_eq_true, if_false, src_nil]
  · intro b info parameters
    rw [writeMethodPath_eq, writeMethodPath_eq]
    rfl
  · intro b key info
    rw [writeMethodDefinition_eq, writeMethodPath_eq]
    refine ⟨("\tQVariantHash __params;\n" : QString) ++ perEntry info.parameters paramInsert
        ++ "\tHeaderHash __headers;\n" ++ perEntry info.headers headerInsert
        ++ methodCall info
        ++ (if info.except = b.defaultExcept then errorForwarding b.className info else [])
        ++ "\treturn __reply;\n" ++ "\x7d\n", ?_⟩
    simp only [src_src]
    unfold methodDefinition methodDefinitionBody
    simp only [List.append_assoc]

/-- C14 as amended, on a method with the path `posts/` and the path parameters `id` and
`part`, in this order. -/
theorem path_parameters_in_schema_order_witness :
    writeMethodPath (sampleBuilder schemaPosts)
        { MethodInfo.create with
          path := ("posts/" : QString),
          pathParams := [{ type := "int", name := "id", defaultValue := [] },
            { type := "int", name := "part", defaultValue := [] }] }
      = ((sampleBuilder schemaPosts).src
          ("\tQString __path = \"posts/\";\n\t__path.append(QVariant::fromValue(id).toString());\n\t__path.append(QVariant::fromValue(part).toString());\n\n"
            : QString), true) := by
  rw [(path_parameters_in_schema_order.1 (sampleBuilder schemaPosts)
    { MethodInfo.create with
      path := ("posts/" : QString),
      pathParams := [{ type := "int", name := "id", defaultValue := [] },
        { type := "int", name := "part", defaultValue := [] }] }
    (Or.inl (by decide))).1]
  congr 2

/-- C15: every method definition declares `QVariantHash __params` and `HeaderHash __headers`,
also when the method has no query parameter and no header; after the first declaration comes
one `__params.insert("<name>", <name>);` per query parameter, in the order of `parameters`,
and after the second one `__headers.insert("<key>", expr(value));` per stored header, the key
verbatim between quotes and the value through `expr`. Both blocks are made from the query
parameters and the headers alone. The stored query parameters are the entries of the schema's
`parameters` array, one by one and in order, and the stored headers are the members of the
schema's `headers` object, when no key occurs twice in it. -/
theorem parameter_and_header_maps :
    (∀ (b : ClassBuilder) (key : QString) (info : MethodInfo),
      writeMethodDefinition b key info = b.src
        (methodDefinitionHead b.className (key, info) ++ methodPathText info
          ++ (("\tQVariantHash __params;\n" : QString)
            ++ (info.parameters.map (fun param =>
                ("\t__params.insert(\"" : QString) ++ param.name ++ "\", " ++ param.name
                  ++ ");\n")).flatten)
          ++ (("\tHeaderHash __headers;\n" : QString)
            ++ (info.headers.map (fun jt =>
                ("\t__headers.insert(\"" : QString) ++ jt.1 ++ "\", " ++ expr jt.2
                  ++ ");\n")).flatten)
          ++ methodCall info
          ++ (if info.except = b.defaultExcept then errorForwarding b.className info else [])
          ++ "\treturn __reply;\n" ++ "\x7d\n")) ∧
    (∀ info : MethodInfo,
      (info.parameters.map (fun param =>
          ("\t__params.insert(\"" : QString) ++ param.name ++ "\", " ++ param.name
            ++ ");\n")).length = info.parameters.length ∧
      (info.headers.map (fun jt =>
          ("\t__headers.insert(\"" : QString) ++ jt.1 ++ "\", " ++ expr jt.2
            ++ ");\n")).length = info.headers.length) ∧
    (∀ (defaultExcept : QString) (obj : QJsonObject) (info : MethodInfo),
      readMethod defaultExcept obj = .ok info →
      List.Forall₂ (fun v p => MethodInfo.Parameter.create (v.toString []) = .ok p)
        (QJsonObject.value obj "parameters").toArray info.parameters ∧
      (((QJsonObject.value obj "headers").toObject.map (fun it => it.1)).Nodup →
        info.headers =
          (QJsonObject.value obj "headers").toObject.map (fun it => (it.1, it.2.toString [])))) := by
  refine ⟨?_, fun info => ⟨List.length_map _ _, List.length_map _ _⟩, ?_⟩
  · intro b key info
    have e1 : (info.parameters.map (fun param =>
        ("\t__params.insert(\"" : QString) ++ param.name ++ "\", " ++ param.name
          ++ ");\n")).flatten = perEntry info.parameters paramInsert := rfl
    have e2 : (info.headers.map (fun jt =>
        ("\t__headers.insert(\"" : QString) ++ jt.1 ++ "\", " ++ expr jt.2
          ++ ");\n")).flatten = perEntry info.headers headerInsert := rfl
    rw [writeMethodDefinition_eq, e1, e2]
    unfold methodDefinition methodDefinitionBody
    simp only [List.append_assoc]
  · intro defaultExcept obj info h
    have hf := readMethod_ok_fields defaultExcept obj info h
    refine ⟨readParams_entries _ _ hf.2.2.2.2.1, ?_⟩
    intro hkeys
    rw [hf.2.2.2.2.2.1]
    exact readHeaders_fresh _ hkeys

/-- C15, on the schema object of a method with the query parameter `limit` and the header
`Accept`. -/
theorem parameter_and_header_maps_witness :
    ({ MethodInfo.create with
        parameters := [{ type := "int", name := "limit", defaultValue := "10" }],
        headers := [(("Accept" : QString), ("$accept" : QString))] } : MethodInfo).headers
      = ([("Accept", .string "$accept")] : QJsonObject).map
        (fun it => (it.1, it.2.toString [])) :=
  (parameter_and_header_maps.2.2 ("QObject*" : QString)
    [("parameters", .array [.string "limit;int;10"]),
      ("headers", .object [("Accept", .string "$accept")])]
    { MethodInfo.create with
      parameters := [{ type := "int", name := "limit", defaultValue := "10" }],
      headers := [(("Accept" : QString), ("$accept" : QString))] }
    (by rfl)).2 (by decide)

/-- C16: `writeApiCreation` appends the creation of the client, one
`setBaseUrl(QUrl(expr(baseUrl)))`, which is `QUrl("")` when `baseUrl` is absent or not a
string, `setApiVersion` exactly when `apiVersion` is a string that is not empty, then one
`addGlobalHeader` per member of the root `headers` and after them one `addGlobalParameter` per
member of the root `parameters`. The local and the global form of `generateClient()` hold this
same text between their own first and last lines. -/
theorem client_construction_reflects_root (b : ClassBuilder) :
    writeApiCreation b = b.src (apiCreation b.root) ∧
    apiCreation b.root =
      ("\t\tclient = new RestClient(QCoreApplication::instance());\n" : QString)
        ++ (("\t\tclient->setBaseUrl(QUrl(" : QString)
          ++ expr ((QJsonObject.value b.root "baseUrl").toString []) ++ "));\n")
        ++ (if (QJsonObject.value b.root "apiVersion").toString [] ≠ [] then
            ("\t\tclient->setApiVersion(QVersionNumber::fromString(" : QString)
              ++ expr ((QJsonObject.value b.root "apiVersion").toString []) ++ "));\n"
          else [])
        ++ ((QJsonObject.value b.root "headers").toObject.map (fun it =>
            ("\t\tclient->addGlobalHeader(\"" : QString) ++ it.1 ++ "\", "
              ++ expr (it.2.toString []) ++ ");\n")).flatten
        ++ ((QJsonObject.value b.root "parameters").toObject.map (fun it =>
            ("\t\tclient->addGlobalParameter(\"" : QString) ++ it.1 ++ "\", "
              ++ expr (it.2.toString []) ++ ");\n")).flatten ∧
    ((∀ s, QJsonObject.value b.root "baseUrl" ≠ .string s) →
      expr ((QJsonObject.value b.root "baseUrl").toString []) = ("\"\"" : QString)) ∧
    ((QJsonObject.value b.root "apiVersion").toString [] ≠ [] ↔
      ∃ s : QString, QJsonObject.value b.root "apiVersion" = .string s ∧ s ≠ []) ∧
    ((QJsonObject.value b.root "headers").toObject.map (fun it =>
        ("\t\tclient->addGlobalHeader(\"" : QString) ++ it.1 ++ "\", "
          ++ expr (it.2.toString []) ++ ");\n")).length
      = (QJsonObject.value b.root "headers").toObject.length ∧
    ((QJsonObject.value b.root "parameters").toObject.map (fun it =>
        ("\t\tclient->addGlobalParameter(\"" : QString) ++ it.1 ++ "\", "
          ++ expr (it.2.toString []) ++ ");\n")).length
      = (QJsonObject.value b.root "parameters").toObject.length ∧
    writeLocalApiGeneration b = b.src
      ((("\nRestClient *" : QString) ++ b.className ++ "::generateClient()\n"
          ++ "\x7b\n"
          ++ "\tstatic QPointer<RestClient> client = nullptr;\n"
          ++ "\tif(!client) \x7b\n")
        ++ apiCreation b.root
        ++ (("\t\x7d\n" : QString)
          ++ "\treturn client;\n"
          ++ "\x7d\n")) ∧
    (∀ globalName : QString, ∃ startup : QString, writeGlobalApiGeneration b globalName = b.src
      ((("\nRestClient *" : QString) ++ b.className ++ "::generateClient()\n"
          ++ "\x7b\n"
          ++ "\tauto client = apiClient(" ++ expr globalName ++ ");\n"
          ++ "\tif(!client) \x7b\n")
        ++ apiCreation b.root
        ++ (("\t\taddGlobalApi(" : QString) ++ expr globalName ++ ", client);\n"
          ++ "\t\x7d\n"
          ++ "\treturn client;\n"
          ++ "\x7d\n")
        ++ startup)) := by
  refine ⟨writeApiCreation_eq b, rfl, ?_, ?_, List.length_map _ _, List.length_map _ _, ?_, ?_⟩
  · intro hno
    have h0 : (QJsonObject.value b.root "baseUrl").toString [] = [] := by
      cases hv : QJsonObject.value b.root "baseUrl" <;>
        first | rfl | exact absurd hv (hno _)
    rw [h0]
    rfl
  · constructor
    · intro hne
      cases hv : QJsonObject.value b.root "apiVersion" with
      | string s =>
        rw [hv] at hne
        exact ⟨s, rfl, hne⟩
      | _ => rw [hv] at hne; exact absurd rfl hne
    · rintro ⟨s, hs, hne⟩
      rw [hs]
      exact hne
  · rw [writeLocalApiGeneration_eq]
    unfold localApiGeneration
    simp only [List.append_assoc]
  · intro globalName
    refine ⟨if autoCreateOf b.root then startupFunction b.className else [], ?_⟩
    rw [writeGlobalApiGeneration_eq]
    unfold globalApiGeneration
    simp only [List.append_assoc]

set_option maxRecDepth 100000 in
/-- C16, on a schema with a base url, no version, one global header and one global
parameter. -/
theorem client_construction_reflects_root_witness :
    (writeApiCreation (sampleBuilder
      [("type", .string "api"), ("baseUrl", .string "http://x"),
        ("headers", .object [("A", .string "a")]),
        ("parameters", .object [("p", .string "$q")])])).source
      = ("\t\tclient = new RestClient(QCoreApplication::instance());\n\t\tclient->setBaseUrl(QUrl(\"http://x\"));\n\t\tclient->addGlobalHeader(\"A\", \"a\");\n\t\tclient->addGlobalParameter(\"p\", q);\n"
        : QString) := by
  rw [(client_construction_reflects_root _).1]
  decide

/-- C18: `expr` gives the text after a leading '$' verbatim, so `expr "$"` is empty; a text that
does not start with '$' is put between two double quotes with no character changed, so its
length grows by two and `expr ""` is the two quotes. -/
theorem expr_text :
    (∀ s : QString, expr (("$" : QString) ++ s) = s) ∧
    expr ("$" : QString) = [] ∧
    (∀ s : QString, ¬ (("$" : QString) <+: s) →
      expr s = ['"'] ++ s ++ ['"'] ∧ (expr s).length = s.length + 2) ∧
    expr ("" : QString) = ['"', '"'] := by
  refine ⟨fun s => rfl, rfl, ?_, rfl⟩
  intro s hs
  have hhead : s.head? ≠ some '$' := by
    intro h
    cases s with
    | nil => cases h
    | cons c cs =>
      simp only [List.head?_cons, Option.some.injEq] at h
      exact hs ⟨cs, by rw [h]; rfl⟩
  have he : expr s = ['"'] ++ s ++ ['"'] := by
    unfold expr
    rw [if_neg hhead]
  exact ⟨he, by rw [he]; simp⟩

/-- C18, on the text `id`, which becomes `"id"`. -/
theorem expr_text_witness : expr ("id" : QString) = ("\"id\"" : QString) :=
  (expr_text.2.2.1 ("id" : QString) (by decide)).1

/-- C19: after a `readMethods` that did not throw, on a builder without stored methods and a
schema whose `methods` has no key twice, the stored methods are the methods of the schema, one
by one under the same names, and every field falls back: `verb` to "GET", `returns` to
"QObject*", `body`, `path` and `url` to the empty string, and `except` to the class-level
`except`, which itself falls back from the root `except` to what the builder held, "QObject*"
for a builder that was just constructed. A field that is present as a string is stored as it
is. -/
theorem method_fields_fall_back (b : ClassBuilder) (hfresh : b.methods = [])
    (hkeys : ((QJsonObject.value b.root "methods").toObject.map (fun it => it.1)).Nodup)
    (hok : (readMethods b).thrown = none) :
    fallsBack b.root "except" b.defaultExcept (readMethods b).state.defaultExcept ∧
    List.Forall₂ (fun it e => e.1 = it.1 ∧
        fallsBack it.2.toObject "verb" "GET" e.2.verb ∧
        fallsBack it.2.toObject "returns" "QObject*" e.2.returns ∧
        fallsBack it.2.toObject "body" [] e.2.body ∧
        fallsBack it.2.toObject "path" [] e.2.path ∧
        fallsBack it.2.toObject "url" [] e.2.url ∧
        fallsBack it.2.toObject "except" (readMethods b).state.defaultExcept e.2.except)
      (QJsonObject.value b.root "methods").toObject (readMethods b).state.methods ∧
    (∀ base : RestBuilder, (ClassBuilder.create base).defaultExcept = ("QObject*" : QString) ∧
      (ClassBuilder.create base).methods = []) := by
  have hde : (readMethods b).state.defaultExcept
      = (QJsonObject.value b.root "except").toString b.defaultExcept := by
    unfold readMethods
    simp only []
    rw [readMethodsLoop_defaultExcept]
  refine ⟨fallsBack_of_toString _ _ _ _ hde, ?_, fun base => ⟨rfl, rfl⟩⟩
  rw [hde]
  unfold readMethods at hok ⊢
  simp only [] at hok ⊢
  obtain ⟨ms, hms, hall⟩ := readMethodsLoop_stored _ _ hkeys
    (fun e he => by
      have he' : e ∈ b.methods := he
      rw [hfresh] at he'
      exact absurd he' (List.not_mem_nil e)) hok
  rw [hms]
  have hnil : ({ b with defaultExcept :=
      (QJsonObject.value b.root "except").toString b.defaultExcept } : ClassBuilder).methods
      = [] := hfresh
  rw [hnil, List.nil_append]
  refine List.Forall₂.imp ?_ hall
  intro it e he
  obtain ⟨hkey, hread⟩ := he
  have hf := readMethod_ok_fields _ _ _ hread
  exact ⟨hkey,
    fallsBack_of_toString _ _ _ _ hf.2.2.1,
    fallsBack_of_toString _ _ _ _ hf.2.2.2.2.2.2.2.1,
    fallsBack_of_toString _ _ _ _ hf.2.2.2.2.2.2.1,
    fallsBack_of_toString _ _ _ _ hf.1,
    fallsBack_of_toString _ _ _ _ hf.2.1,
    fallsBack_of_toString _ _ _ _ hf.2.2.2.2.2.2.2.2⟩

/-- C19, on the api schema `schemaDefaults`: the class-level error type is `ApiError`, taken
from the root. -/
theorem method_fields_fall_back_witness :
    fallsBack (sampleBuilder schemaDefaults).root "except" ("QObject*" : QString)
      (readMethods (sampleBuilder schemaDefaults)).state.defaultExcept :=
  (method_fields_fall_back (sampleBuilder schemaDefaults) rfl (by decide) (by decide)).1

/-- C20: the five-argument constructor of `TestObject` is defined for every `childId` (the call
it makes to itself passes `-1`, and a call with `-1` makes none), and the object it constructs
has a child exactly when `childId > 0`; that child has the id `childId`, an empty name, an
empty `stateMap`, no child of its own and no relatives, and the constructed object has the id,
the name and the `stateMap` it was given and no relatives. -/
theorem testObject_nests_one_level (id : Int) (name : QString) (stateMap : List Bool)
    (childId : Int) :
    ((TestObject.create id name stateMap childId).child.isSome = true ↔ childId > 0) ∧
    (childId > 0 →
      (TestObject.create id name stateMap childId).child
        = some (TestObject.mk childId [] [] none [])) ∧
    (childId ≤ 0 → (TestObject.create id name stateMap childId).child = none) ∧
    (∀ c : TestObject, (TestObject.create id name stateMap childId).child = some c →
      c.id = childId ∧ c.name = [] ∧ c.stateMap = [] ∧ c.child = none ∧ c.relatives = []) ∧
    (TestObject.create id name stateMap childId).relatives = [] ∧
    (TestObject.create id name stateMap childId).id = id ∧
    (TestObject.create id name stateMap childId).name = name ∧
    (TestObject.create id name stateMap childId).stateMap = stateMap := by
  have hleaf : TestObject.create childId [] [] (-1) = TestObject.mk childId [] [] none [] := by
    rw [TestObject.create]
    simp
  have hpos : childId > 0 →
      (TestObject.create id name stateMap childId).child
        = some (TestObject.mk childId [] [] none []) := by
    intro h
    rw [TestObject.create]
    simp only [TestObject.child, h, dite_true, hleaf]
  have hneg : childId ≤ 0 → (TestObject.create id name stateMap childId).child = none := by
    intro h
    have h' : ¬ childId > 0 := not_lt.mpr h
    rw [TestObject.create]
    simp only [TestObject.child, h', dite_false]
  refine ⟨?_, hpos, hneg, ?_, ?_, ?_, ?_, ?_⟩
  · constructor
    · intro hs
      by_contra hc
      rw [hneg (not_lt.mp hc)] at hs
      cases hs
    · intro h
      rw [hpos h]
      rfl
  · intro c hc
    by_cases h : childId > 0
    · rw [hpos h] at hc
      cases hc
      exact ⟨rfl, rfl, rfl, rfl, rfl⟩
    · rw [hneg (not_lt.mp h)] at hc
      cases hc
  · rw [TestObject.create]
    rfl
  · rw [TestObject.create]
    rfl
  · rw [TestObject.create]
    rfl
  · rw [TestObject.create]
    rfl

/-- C20, with the child id 7. -/
theorem testObject_nests_one_level_witness :
    (TestObject.create 1 ("a" : QString) [true] 7).child
      = some (TestObject.mk 7 [] [] none []) :=
  (testObject_nests_one_level 1 ("a" : QString) [true] 7).2.1 (by decide)

end QtRestClient
